import Mathlib

set_option maxHeartbeats 1000000

/-!
Verification of the arrow <-> python marshalling core of `arrow-udf`
(`arrow-udf-python/src/pyarrow.rs`): the decoder `get_pyobject` (arrow array ->
python object) and the encoder `build_array` (python objects -> arrow array),
plus the introspectable function-signature metadata exercised by
`arrow-udf/tests/tests.rs`.

The embedding follows the Rust source. External collaborators (the pyo3
conversion traits, Python's `json` and `decimal` modules, `str::from_utf8`,
and the arrow-rs array constructors with their validation panics) are not part
of the repository; they are modelled by concrete executable functions that
follow their documented contracts, each marked by a doc comment. Machine
integers that can overflow are modelled as `Int`/`Nat` with an explicit
wrap (`toI32` models Rust's `as i32` cast). Fallible paths return
`Except String`; an arrow constructor panic is modelled as an error (in both
cases no array is produced).
-/

namespace ArrowUdf

/-- Logical type descriptor: exactly the closed set of `arrow_schema::DataType`
variants that `pyarrow.rs` handles (`LargeUtf8` carries JSON text,
`LargeBinary` carries decimal text; every other variant hits `todo!()` and is
outside the model). -/
inductive DataType where
  | null
  | boolean
  | int8
  | int16
  | int32
  | int64
  | uint8
  | uint16
  | uint32
  | uint64
  | float32
  | float64
  | utf8
  | binary
  | largeUtf8
  | largeBinary
  | list (inner : DataType)
  | struct (fields : List (String × DataType))
deriving Repr

/-- Model of Python's arbitrary-precision `decimal.Decimal` value
`(-1)^sign * coeff * 10^exp`. -/
structure PyDecimal where
  sign : Bool
  coeff : Nat
  exp : Int
deriving DecidableEq, Repr

/-- Dynamic (Python) values as the marshaller observes them. Floating-point
payloads are opaque: the code never computes with floats, it only moves them
between an arrow buffer and a Python float, so the payload is carried as an
uninterpreted `Nat` (bit pattern); the exact f32->f64->f32 widening round-trip
of the real code is modelled as the identity on the payload. -/
inductive PyObject where
  | none
  | bool (b : Bool)
  | int (n : Int)
  | float (bits : Nat)
  | str (s : String)
  | bytes (bs : List Nat)
  | pylist (xs : List PyObject)
  | dict (kvs : List (String × PyObject))
  | structObj (attrs : List (String × PyObject))
  | decimal (d : PyDecimal)
deriving Repr

/-- Model of pyo3 `PyObject::is_none`. -/
def PyObject.isNone : PyObject → Bool
  | .none => true
  | _ => false

/-- Model of Python iteration (pyo3 `PyAny::iter`): lists yield their elements,
strings yield one-character strings, bytes yield ints, dicts yield their keys;
other objects are not iterable (`TypeError`). -/
def pyIter : PyObject → Option (List PyObject)
  | .pylist xs => some xs
  | .str s => some (s.data.map fun c => .str (String.mk [c]))
  | .bytes bs => some (bs.map fun b => .int (Int.ofNat b))
  | .dict kvs => some (kvs.map fun kv => .str kv.1)
  | _ => Option.none

/-- Model of Python attribute access (pyo3 `PyAny::getattr`): only the
`Struct()` objects built by the evaluator carry attributes. -/
def PyObject.getattr : PyObject → String → Except String PyObject
  | .structObj attrs, name =>
    match attrs.lookup name with
    | some v => .ok v
    | Option.none => .error "AttributeError"
  | _, _ => .error "AttributeError"

/-- Model of pyo3 `extract::<bool>`: only a Python bool extracts. -/
def extractBool : PyObject → Except String Bool
  | .bool b => .ok b
  | _ => .error "TypeError: expected bool"

/-- Model of pyo3 integer extraction at a given signed/unsigned width: a
Python int extracts when it is in range, anything else is a TypeError and an
out-of-range int an OverflowError. -/
def extractIntRange (lo hi : Int) : PyObject → Except String Int
  | .int n => if lo ≤ n ∧ n ≤ hi then .ok n else .error "OverflowError"
  | _ => .error "TypeError: expected int"

/-- Model of pyo3 float extraction: the opaque payload is returned as stored. -/
def extractFloat : PyObject → Except String Nat
  | .float bits => .ok bits
  | _ => .error "TypeError: expected float"

/-- Model of pyo3 `extract::<&str>`. -/
def extractStr : PyObject → Except String String
  | .str s => .ok s
  | _ => .error "TypeError: expected str"

/-- Model of pyo3 `extract::<&[u8]>`. -/
def extractBytes : PyObject → Except String (List Nat)
  | .bytes bs => .ok bs
  | _ => .error "TypeError: expected bytes"

/-- Sequential fallible map, mirroring the builder loops of `build_array!`:
elements are converted in order and the first failure aborts. -/
def exMap (f : α → Except String β) : List α → Except String (List β)
  | [] => .ok []
  | x :: xs =>
    match f x with
    | .error e => .error e
    | .ok y =>
      match exMap f xs with
      | .error e => .error e
      | .ok ys => .ok (y :: ys)

/-- One step of a nullable builder loop: `if pyobj.is_none { append_null }
else { append_value(extract?) }`. -/
def extractOpt (f : PyObject → Except String α) (v : PyObject) :
    Except String (Option α) :=
  if v.isNone then .ok Option.none
  else
    match f v with
    | .ok x => .ok (some x)
    | .error e => .error e

/-- Rust's `as i32` cast of a `usize` length: two's-complement wrap. -/
def toI32 (n : Nat) : Int :=
  let m : Nat := n % 2 ^ 32
  if m < 2 ^ 31 then (m : Int) else (m : Int) - 2 ^ 32

/-- Column arrays, one constructor per physical array type `pyarrow.rs`
downcasts to. A primitive array's values and null mask are merged into
`List (Option _)` (the code always checks `is_null` before reading a value, so
the garbage in a null slot is unobservable). A list array owns i32 offsets, a
child array and a validity mask (`true` = valid, as the source's
`!v.is_none(py)` collect); a struct array owns one child per field plus its
own validity mask. -/
inductive ArrowArray where
  | nullA (len : Nat)
  | boolA (vals : List (Option Bool))
  | int8A (vals : List (Option Int))
  | int16A (vals : List (Option Int))
  | int32A (vals : List (Option Int))
  | int64A (vals : List (Option Int))
  | uint8A (vals : List (Option Int))
  | uint16A (vals : List (Option Int))
  | uint32A (vals : List (Option Int))
  | uint64A (vals : List (Option Int))
  | float32A (vals : List (Option Nat))
  | float64A (vals : List (Option Nat))
  | utf8A (vals : List (Option String))
  | binaryA (vals : List (Option (List Nat)))
  | largeUtf8A (vals : List (Option String))
  | largeBinaryA (vals : List (Option (List Nat)))
  | listA (inner : DataType) (offsets : List Int) (child : ArrowArray)
      (valid : List Bool)
  | structA (fields : List (String × DataType)) (children : List ArrowArray)
      (valid : List Bool)
deriving Repr

/-- Array length (`Array::len`): a list array's length is `offsets.len() - 1`,
a struct array's the length of its validity mask (arrow validates the children
against it at construction). -/
def ArrowArray.length : ArrowArray → Nat
  | .nullA len => len
  | .boolA vs => vs.length
  | .int8A vs => vs.length
  | .int16A vs => vs.length
  | .int32A vs => vs.length
  | .int64A vs => vs.length
  | .uint8A vs => vs.length
  | .uint16A vs => vs.length
  | .uint32A vs => vs.length
  | .uint64A vs => vs.length
  | .float32A vs => vs.length
  | .float64A vs => vs.length
  | .utf8A vs => vs.length
  | .binaryA vs => vs.length
  | .largeUtf8A vs => vs.length
  | .largeBinaryA vs => vs.length
  | .listA _ offsets _ _ => offsets.length - 1
  | .structA _ _ valid => valid.length

/-- Logical per-position nullity. For the primitive arrays this reads the
merged mask; for list/struct arrays the dedicated validity mask. Arrow's
`Null` type marks every position null (every slot of a `NullArray` is
logically null). Out of range positions report not-null, which is never
observed by in-range claims. -/
def ArrowArray.isNull : ArrowArray → Nat → Bool
  | .nullA len, i => decide (i < len)
  | .boolA vs, i => (vs[i]?).elim false Option.isNone
  | .int8A vs, i => (vs[i]?).elim false Option.isNone
  | .int16A vs, i => (vs[i]?).elim false Option.isNone
  | .int32A vs, i => (vs[i]?).elim false Option.isNone
  | .int64A vs, i => (vs[i]?).elim false Option.isNone
  | .uint8A vs, i => (vs[i]?).elim false Option.isNone
  | .uint16A vs, i => (vs[i]?).elim false Option.isNone
  | .uint32A vs, i => (vs[i]?).elim false Option.isNone
  | .uint64A vs, i => (vs[i]?).elim false Option.isNone
  | .float32A vs, i => (vs[i]?).elim false Option.isNone
  | .float64A vs, i => (vs[i]?).elim false Option.isNone
  | .utf8A vs, i => (vs[i]?).elim false Option.isNone
  | .binaryA vs, i => (vs[i]?).elim false Option.isNone
  | .largeUtf8A vs, i => (vs[i]?).elim false Option.isNone
  | .largeBinaryA vs, i => (vs[i]?).elim false Option.isNone
  | .listA _ _ _ valid, i => !((valid[i]?).getD true)
  | .structA _ _ valid, i => !((valid[i]?).getD true)

/-- The data type an array reports (`Array::data_type`). -/
def ArrowArray.dataType : ArrowArray → DataType
  | .nullA _ => .null
  | .boolA _ => .boolean
  | .int8A _ => .int8
  | .int16A _ => .int16
  | .int32A _ => .int32
  | .int64A _ => .int64
  | .uint8A _ => .uint8
  | .uint16A _ => .uint16
  | .uint32A _ => .uint32
  | .uint64A _ => .uint64
  | .float32A _ => .float32
  | .float64A _ => .float64
  | .utf8A _ => .utf8
  | .binaryA _ => .binary
  | .largeUtf8A _ => .largeUtf8
  | .largeBinaryA _ => .largeBinary
  | .listA inner _ _ _ => .list inner
  | .structA fields _ _ => .struct fields

/-- The offsets of a list array (empty for any other array). -/
def ArrowArray.listOffsets : ArrowArray → List Int
  | .listA _ offsets _ _ => offsets
  | _ => []

/-- The child array of a list array. -/
def ArrowArray.listChild : ArrowArray → Option ArrowArray
  | .listA _ _ child _ => some child
  | _ => Option.none

/-- The field children of a struct array (empty for any other array). -/
def ArrowArray.structChildren : ArrowArray → List ArrowArray
  | .structA _ children _ => children
  | _ => []

/-- The struct-level validity mask of a struct array. -/
def ArrowArray.structNulls : ArrowArray → Option (List Bool)
  | .structA _ _ valid => some valid
  | _ => Option.none

def isWs (c : Char) : Bool :=
  c = ' ' || c = '\t' || c = '\n' || c = '\r'

def skipWs : List Char → List Char
  | [] => []
  | c :: rest => if isWs c then skipWs rest else c :: rest

def isDigitC (c : Char) : Bool := '0' ≤ c && c ≤ '9'

def takeDigits : List Char → List Char × List Char
  | [] => ([], [])
  | c :: rest =>
    if isDigitC c then
      let p := takeDigits rest
      (c :: p.1, p.2)
    else ([], c :: rest)

def digitsToNat (ds : List Char) : Nat :=
  ds.foldl (fun acc c => acc * 10 + (c.toNat - 48)) 0

/-- String body of a JSON literal: plain characters until the closing quote,
with the escapes of the model. Escapes outside the model are rejected. -/
def parseJStringAux : List Char → List Char → Option (String × List Char)
  | [], _ => Option.none
  | '"' :: rest, acc => some (String.mk acc.reverse, rest)
  | '\\' :: c :: rest, acc =>
    if c = '"' then parseJStringAux rest ('"' :: acc)
    else if c = '\\' then parseJStringAux rest ('\\' :: acc)
    else if c = '/' then parseJStringAux rest ('/' :: acc)
    else if c = 'n' then parseJStringAux rest ('\n' :: acc)
    else if c = 't' then parseJStringAux rest ('\t' :: acc)
    else if c = 'r' then parseJStringAux rest ('\r' :: acc)
    else Option.none
  | ['\\'], _ => Option.none
  | c :: rest, acc => parseJStringAux rest (c :: acc)

def parseJNumber (cs : List Char) : Option (PyObject × List Char) :=
  match cs with
  | '-' :: rest =>
    match takeDigits rest with
    | ([], _) => Option.none
    | (ds, r) =>
      match r with
      | '.' :: _ => Option.none
      | 'e' :: _ => Option.none
      | 'E' :: _ => Option.none
      | _ => some (.int (-(digitsToNat ds : Int)), r)
  | _ =>
    match takeDigits cs with
    | ([], _) => Option.none
    | (ds, r) =>
      match r with
      | '.' :: _ => Option.none
      | 'e' :: _ => Option.none
      | 'E' :: _ => Option.none
      | _ => some (.int (digitsToNat ds : Int), r)

mutual

/-- Model of Python `json.loads` (value parser, fuel-bounded): JSON objects,
arrays, strings, integers, booleans and null, mapped to the corresponding
Python values. Number literals with a fraction or exponent (Python floats)
and \u escapes are outside the model. -/
def parseJValue : Nat → List Char → Option (PyObject × List Char)
  | 0, _ => Option.none
  | fuel + 1, cs =>
    match skipWs cs with
    | 'n' :: 'u' :: 'l' :: 'l' :: rest => some (.none, rest)
    | 't' :: 'r' :: 'u' :: 'e' :: rest => some (.bool true, rest)
    | 'f' :: 'a' :: 'l' :: 's' :: 'e' :: rest => some (.bool false, rest)
    | '"' :: rest =>
      match parseJStringAux rest [] with
      | some (s, r) => some (.str s, r)
      | Option.none => Option.none
    | '[' :: rest =>
      match skipWs rest with
      | ']' :: r => some (.pylist [], r)
      | _ =>
        match parseJElems fuel rest with
        | some (xs, r) => some (.pylist xs, r)
        | Option.none => Option.none
    | '{' :: rest =>
      match skipWs rest with
      | '}' :: r => some (.dict [], r)
      | _ =>
        match parseJMembers fuel rest with
        | some (kvs, r) => some (.dict kvs, r)
        | Option.none => Option.none
    | rest => parseJNumber rest

def parseJElems : Nat → List Char → Option (List PyObject × List Char)
  | 0, _ => Option.none
  | fuel + 1, cs =>
    match parseJValue fuel cs with
    | Option.none => Option.none
    | some (v, r) =>
      match skipWs r with
      | ',' :: r2 =>
        match parseJElems fuel r2 with
        | some (vs, r3) => some (v :: vs, r3)
        | Option.none => Option.none
      | ']' :: r2 => some ([v], r2)
      | _ => Option.none

def parseJMembers : Nat → List Char → Option (List (String × PyObject) × List Char)
  | 0, _ => Option.none
  | fuel + 1, cs =>
    match skipWs cs with
    | '"' :: rest =>
      match parseJStringAux rest [] with
      | Option.none => Option.none
      | some (k, r) =>
        match skipWs r with
        | ':' :: r2 =>
          match parseJValue fuel r2 with
          | Option.none => Option.none
          | some (v, r3) =>
            match skipWs r3 with
            | ',' :: r4 =>
              match parseJMembers fuel r4 with
              | some (kvs, r5) => some ((k, v) :: kvs, r5)
              | Option.none => Option.none
            | '}' :: r4 => some ([(k, v)], r4)
            | _ => Option.none
        | _ => Option.none
    | _ => Option.none

end

/-- Model of Python `json.loads` on a whole string: the parsed value, if the
text is a JSON value of the model followed only by whitespace. -/
def jsonLoads (s : String) : Option PyObject :=
  match parseJValue (2 * s.length + 4) s.data with
  | some (v, rest) => if (skipWs rest).isEmpty then some v else Option.none
  | Option.none => Option.none

def jsonQuoteChar (c : Char) : String :=
  if c = '"' then "\\\""
  else if c = '\\' then "\\\\"
  else if c = '\n' then "\\n"
  else if c = '\t' then "\\t"
  else if c = '\r' then "\\r"
  else String.mk [c]

def jsonQuote (s : String) : String :=
  "\"" ++ String.join (s.data.map jsonQuoteChar) ++ "\""

mutual

/-- Model of Python `json.dumps` with default separators: null, booleans,
integers, strings, lists and dicts serialize; other objects raise TypeError.
(Real `json.dumps` also serializes floats; float payloads are opaque in this
model, so they are outside it.) -/
def jsonDumps : PyObject → Except String String
  | .none => .ok "null"
  | .bool true => .ok "true"
  | .bool false => .ok "false"
  | .int n => .ok (toString n)
  | .str s => .ok (jsonQuote s)
  | .pylist xs =>
    match jsonDumpsSeq xs with
    | .ok parts => .ok ("[" ++ String.intercalate ", " parts ++ "]")
    | .error e => .error e
  | .dict kvs =>
    match jsonDumpsPairs kvs with
    | .ok parts => .ok ("\x7b" ++ String.intercalate ", " parts ++ "\x7d")
    | .error e => .error e
  | _ => .error "TypeError: not JSON serializable"

def jsonDumpsSeq : List PyObject → Except String (List String)
  | [] => .ok []
  | x :: xs =>
    match jsonDumps x with
    | .error e => .error e
    | .ok s =>
      match jsonDumpsSeq xs with
      | .error e => .error e
      | .ok ss => .ok (s :: ss)

def jsonDumpsPairs : List (String × PyObject) → Except String (List String)
  | [] => .ok []
  | (k, v) :: rest =>
    match jsonDumps v with
    | .error e => .error e
    | .ok s =>
      match jsonDumpsPairs rest with
      | .error e => .error e
      | .ok ss => .ok ((jsonQuote k ++ ": " ++ s) :: ss)

end

def parseSignedDigits : List Char → Option (Int × List Char)
  | '-' :: r =>
    match takeDigits r with
    | ([], _) => Option.none
    | (ds, r2) => some (-(digitsToNat ds : Int), r2)
  | '+' :: r =>
    match takeDigits r with
    | ([], _) => Option.none
    | (ds, r2) => some ((digitsToNat ds : Int), r2)
  | cs =>
    match takeDigits cs with
    | ([], _) => Option.none
    | (ds, r2) => some ((digitsToNat ds : Int), r2)

def parseExpPart : List Char → Option (Int × List Char)
  | 'e' :: r => parseSignedDigits r
  | 'E' :: r => parseSignedDigits r
  | cs => some (0, cs)

/-- Model of the `decimal.Decimal` string constructor: optional surrounding
whitespace, optional sign, digits with an optional fraction, optional
exponent. The special values (NaN, Infinity) are outside the model. Returns
the arbitrary-precision value `(-1)^sign * coeff * 10^exp`. -/
def decimalParse (s : String) : Option PyDecimal :=
  let cs := skipWs s.data
  let signAndRest : Bool × List Char :=
    match cs with
    | '-' :: r => (true, r)
    | '+' :: r => (false, r)
    | _ => (false, cs)
  let intPart := takeDigits signAndRest.2
  let fracPart :=
    match intPart.2 with
    | '.' :: r => takeDigits r
    | _ => ([], intPart.2)
  if intPart.1.isEmpty && fracPart.1.isEmpty then Option.none
  else
    match parseExpPart fracPart.2 with
    | Option.none => Option.none
    | some (e, rest) =>
      if (skipWs rest).isEmpty then
        some ⟨signAndRest.1, digitsToNat (intPart.1 ++ fracPart.1),
          e - (fracPart.1.length : Int)⟩
      else Option.none

def contOk (b : Nat) : Bool := 0x80 ≤ b && b < 0xC0

/-- Model of Rust `std::str::from_utf8` (strict UTF-8: continuation bytes,
overlong encodings, surrogates and out-of-range code points all rejected),
decoding to the character list. -/
def utf8DecodeAux : Nat → List Nat → Option (List Char)
  | _, [] => some []
  | 0, _ :: _ => Option.none
  | fuel + 1, b :: rest =>
    if b < 0x80 then
      match utf8DecodeAux fuel rest with
      | some cs => some (Char.ofNat b :: cs)
      | Option.none => Option.none
    else if b < 0xC2 then Option.none
    else if b < 0xE0 then
      match rest with
      | b2 :: r2 =>
        if contOk b2 then
          match utf8DecodeAux fuel r2 with
          | some cs => some (Char.ofNat ((b - 0xC0) * 64 + (b2 - 0x80)) :: cs)
          | Option.none => Option.none
        else Option.none
      | [] => Option.none
    else if b < 0xF0 then
      match rest with
      | b2 :: b3 :: r2 =>
        let c := (b - 0xE0) * 4096 + (b2 - 0x80) * 64 + (b3 - 0x80)
        if contOk b2 && contOk b3 && decide (0x800 ≤ c) &&
            (decide (c < 0xD800) || decide (0xE000 ≤ c)) then
          match utf8DecodeAux fuel r2 with
          | some cs => some (Char.ofNat c :: cs)
          | Option.none => Option.none
        else Option.none
      | _ => Option.none
    else if b < 0xF5 then
      match rest with
      | b2 :: b3 :: b4 :: r2 =>
        let c := (b - 0xF0) * 262144 + (b2 - 0x80) * 4096 +
          (b3 - 0x80) * 64 + (b4 - 0x80)
        if contOk b2 && contOk b3 && contOk b4 && decide (0x10000 ≤ c) &&
            decide (c < 0x110000) then
          match utf8DecodeAux fuel r2 with
          | some cs => some (Char.ofNat c :: cs)
          | Option.none => Option.none
        else Option.none
      | _ => Option.none
    else Option.none

def utf8Decode (bs : List Nat) : Option String :=
  (utf8DecodeAux bs.length bs).map String.mk

/-- Model of Python `str()` as used for the decimal encoder's
`val.to_string()`: total, never fails. The renderings of compound objects and
of the opaque float payload are placeholders — nothing in the claims depends
on them, only on totality and null behaviour. -/
def pyStr : PyObject → String
  | .none => "None"
  | .bool true => "True"
  | .bool false => "False"
  | .int n => toString n
  | .float bits => "<float " ++ toString bits ++ ">"
  | .str s => s
  | .bytes _ => "<bytes>"
  | .pylist _ => "<list>"
  | .dict _ => "<dict>"
  | .structObj _ => "<object>"
  | .decimal d =>
    (if d.sign then "-" else "") ++ toString d.coeff ++
      (if d.exp = 0 then "" else "E" ++ toString d.exp)

/-- UTF-8 bytes of a string (what a Rust `String` stores). -/
def strBytes (s : String) : List Nat :=
  s.toUTF8.toList.map fun b => b.toNat

/-- Model of the `get_pyobject!` macro (pyarrow.rs lines 24-29): read the
row's raw value from the (already downcast) value list and wrap it as a
python object. The code reaches this only after the null check, so an
in-range position always holds a value. -/
def getPrim (wrap : γ → PyObject) (vs : List (Option γ)) (i : Nat) :
    Except String PyObject :=
  match vs[i]? with
  | some (some v) => .ok (wrap v)
  | _ => .error "index out of bounds"

mutual

/-- Embedding of `get_pyobject` (pyarrow.rs lines 32-88): a null position
decodes to `None` regardless of type; scalars are wrapped as-is; `LargeUtf8`
text is parsed as JSON and `LargeBinary` text as a decimal (both surfacing
parse errors); lists decode the offset-delimited child span recursively;
structs decode each field child at the same row into an attribute object. -/
def get_pyobject : ArrowArray → Nat → Except String PyObject
  | a, i =>
    if a.isNull i then .ok .none
    else
      match a with
      | .nullA _ => .ok .none
      | .boolA vs => getPrim .bool vs i
      | .int8A vs => getPrim .int vs i
      | .int16A vs => getPrim .int vs i
      | .int32A vs => getPrim .int vs i
      | .int64A vs => getPrim .int vs i
      | .uint8A vs => getPrim .int vs i
      | .uint16A vs => getPrim .int vs i
      | .uint32A vs => getPrim .int vs i
      | .uint64A vs => getPrim .int vs i
      | .float32A vs => getPrim .float vs i
      | .float64A vs => getPrim .float vs i
      | .utf8A vs => getPrim .str vs i
      | .binaryA vs => getPrim .bytes vs i
      | .largeUtf8A vs =>
        match vs[i]? with
        | some (some s) =>
          match jsonLoads s with
          | some v => .ok v
          | Option.none => .error "ValueError: invalid json"
        | _ => .error "index out of bounds"
      | .largeBinaryA vs =>
        match vs[i]? with
        | some (some bs) =>
          match utf8Decode bs with
          | some s =>
            match decimalParse s with
            | some d => .ok (.decimal d)
            | Option.none => .error "decimal.InvalidOperation"
          | Option.none => .error "Utf8Error"
        | _ => .error "index out of bounds"
      | .listA _ offsets child _ =>
        match offsets[i]?, offsets[i + 1]? with
        | some s, some e =>
          match decodeRange child s.toNat (e.toNat - s.toNat) with
          | .ok vs => .ok (.pylist vs)
          | .error err => .error err
        | _, _ => .error "index out of bounds"
      | .structA fields children _ =>
        match decodeFields fields children i with
        | .ok attrs => .ok (.structObj attrs)
        | .error e => .error e
termination_by a _ => (sizeOf a, 0)

/-- The list branch's `for j in 0..list.len()` loop: decode `count` child
positions starting at `start`. -/
def decodeRange : ArrowArray → Nat → Nat → Except String (List PyObject)
  | _, _, 0 => .ok []
  | child, start, count + 1 =>
    match get_pyobject child start with
    | .error e => .error e
    | .ok v =>
      match decodeRange child (start + 1) count with
      | .error e => .error e
      | .ok vs => .ok (v :: vs)
termination_by child _ count => (sizeOf child, count)

/-- The struct branch's loop over declared fields and their columns. -/
def decodeFields : List (String × DataType) → List ArrowArray → Nat →
    Except String (List (String × PyObject))
  | [], [], _ => .ok []
  | (name, _) :: fs, c :: cs, i =>
    match get_pyobject c i with
    | .error e => .error e
    | .ok v =>
      match decodeFields fs cs i with
      | .error e => .error e
      | .ok attrs => .ok ((name, v) :: attrs)
  | _, _, _ => .error "column count mismatch"
termination_by _ cs _ => (sizeOf cs, 0)

end

def nondecreasing : List Int → Bool
  | [] => true
  | [_] => true
  | a :: b :: rest => decide (a ≤ b) && nondecreasing (b :: rest)

/-- Model of arrow-rs `OffsetBuffer::new` + `ListArray::new` validation
(`pyarrow.rs` line 189): offsets must be non-empty, non-negative and
monotonically non-decreasing, the final offset must not exceed the child
array's length, and the null buffer's length must be the array's length.
These constructors panic on violation: no array is produced, modelled as an
error. -/
def listArrayNew (inner : DataType) (offsets : List Int) (child : ArrowArray)
    (valid : List Bool) : Except String ArrowArray :=
  if offsets.isEmpty then .error "offsets must not be empty"
  else if !nondecreasing offsets then
    .error "offsets must be monotonically increasing"
  else if offsets.headD 0 < 0 then .error "offsets must not be negative"
  else if !decide (offsets.getLastD 0 ≤ (child.length : Int)) then
    .error "offsets do not fit in the child array"
  else if valid.length + 1 ≠ offsets.length then
    .error "incorrect length of null buffer"
  else .ok (.listA inner offsets child valid)

/-- Model of arrow-rs `StructArray::new` validation (`pyarrow.rs` line 211):
one child per declared field, every child as long as the null buffer.
Construction panics are modelled as errors. -/
def structArrayNew (fields : List (String × DataType))
    (children : List ArrowArray) (valid : List Bool) :
    Except String ArrowArray :=
  if children.length ≠ fields.length then
    .error "incorrect number of child arrays"
  else if !(children.all fun c => c.length == valid.length) then
    .error "incorrect length of child array"
  else .ok (.structA fields children valid)

/-- The list branch's flattening loop (`pyarrow.rs` lines 173-186): walk the
rows, a null row contributes nothing, any other row is iterated (an error if
not iterable) and its elements appended to the accumulated flat list; after
every row the flat length so far is recorded (cast to i32) as the next
offset. Returns the flattened values and the offsets after the initial 0. -/
def flattenLoop : List PyObject → List PyObject →
    Except String (List PyObject × List Int)
  | [], flat => .ok (flat, [])
  | v :: rest, flat =>
    if v.isNone then
      match flattenLoop rest flat with
      | .ok (f, offs) => .ok (f, toI32 flat.length :: offs)
      | .error e => .error e
    else
      match pyIter v with
      | Option.none => .error "TypeError: object is not iterable"
      | some xs =>
        match flattenLoop rest (flat ++ xs) with
        | .ok (f, offs) => .ok (f, toI32 (flat ++ xs).length :: offs)
        | .error e => .error e

/-- Model of the `build_array!` macro's nullable builder loop (pyarrow.rs
lines 90-126): convert every row in order (null rows append a null, other
rows append the extracted value), the first conversion error aborting, and
finish into the array given by `wrap`. The `LargeUtf8` branch has the same
loop shape with `json.dumps` as the conversion. -/
def buildPrim (wrap : List (Option γ) → ArrowArray)
    (extract : PyObject → Except String γ) (values : List PyObject) :
    Except String ArrowArray :=
  match exMap (extractOpt extract) values with
  | .ok vs => .ok (wrap vs)
  | .error e => .error e

mutual

/-- Embedding of `build_array` (pyarrow.rs lines 129-219): type-directed
encoding of one python value per row into an arrow array. A null value always
appends a null; non-null leaf scalars are extracted at the expected native
type (an error on mismatch); `LargeUtf8` serializes each value with
`json.dumps`; `LargeBinary` appends `str(value)`; lists flatten their rows
into one child value sequence with cumulative i32 offsets and encode it
recursively; structs project each declared field out of every row (null row
=> null placeholder) and encode each projection recursively. -/
def build_array : DataType → List PyObject → Except String ArrowArray
  | .null, values => .ok (.nullA values.length)
  | .boolean, values => buildPrim .boolA extractBool values
  | .int8, values => buildPrim .int8A (extractIntRange (-128) 127) values
  | .int16, values => buildPrim .int16A (extractIntRange (-32768) 32767) values
  | .int32, values =>
    buildPrim .int32A (extractIntRange (-2147483648) 2147483647) values
  | .int64, values =>
    buildPrim .int64A
      (extractIntRange (-9223372036854775808) 9223372036854775807) values
  | .uint8, values => buildPrim .uint8A (extractIntRange 0 255) values
  | .uint16, values => buildPrim .uint16A (extractIntRange 0 65535) values
  | .uint32, values => buildPrim .uint32A (extractIntRange 0 4294967295) values
  | .uint64, values =>
    buildPrim .uint64A (extractIntRange 0 18446744073709551615) values
  | .float32, values => buildPrim .float32A extractFloat values
  | .float64, values => buildPrim .float64A extractFloat values
  | .utf8, values => buildPrim .utf8A extractStr values
  | .binary, values => buildPrim .binaryA extractBytes values
  | .largeUtf8, values => buildPrim .largeUtf8A jsonDumps values
  | .largeBinary, values =>
    .ok (.largeBinaryA (values.map fun v =>
      if v.isNone then Option.none else some (strBytes (pyStr v))))
  | .list inner, values =>
    match flattenLoop values [] with
    | .error e => .error e
    | .ok (flat, offsTail) =>
      match build_array inner flat with
      | .error e => .error e
      | .ok child =>
        listArrayNew inner ((0 : Int) :: offsTail) child
          (values.map fun v => !v.isNone)
  | .struct fields, values =>
    match buildFields fields values with
    | .error e => .error e
    | .ok children =>
      structArrayNew fields children (values.map fun v => !v.isNone)
termination_by dt _ => sizeOf dt

/-- The struct branch's loop over the declared fields: project the field out
of every row (a null row contributes `None`, any other row its attribute of
that name, an error if absent), then encode the projection against the field
type. -/
def buildFields : List (String × DataType) → List PyObject →
    Except String (List ArrowArray)
  | [], _ => .ok []
  | (name, ft) :: rest, values =>
    match exMap (fun v => if v.isNone then .ok PyObject.none else v.getattr name)
        values with
    | .error e => .error e
    | .ok fieldValues =>
      match build_array ft fieldValues with
      | .error e => .error e
      | .ok arr =>
        match buildFields rest values with
        | .error e => .error e
        | .ok others => .ok (arr :: others)
termination_by fs _ => sizeOf fs

end

theorem exMap_ok_length {α β : Type} {f : α → Except String β} :
    ∀ {l : List α} {l' : List β}, exMap f l = .ok l' → l'.length = l.length := by
  intro l
  induction l with
  | nil =>
    intro l' h
    simp only [exMap, Except.ok.injEq] at h
    subst h
    rfl
  | cons a as ih =>
    intro l' h
    simp only [exMap] at h
    cases hfa : f a with
    | error e => rw [hfa] at h; simp at h
    | ok y =>
      rw [hfa] at h
      cases hrest : exMap f as with
      | error e => rw [hrest] at h; simp at h
      | ok ys =>
        rw [hrest] at h
        simp only [Except.ok.injEq] at h
        subst h
        simp only [List.length_cons, ih hrest]

theorem exMap_ok_get {α β : Type} {f : α → Except String β} :
    ∀ {l : List α} {l' : List β} {i : Nat} {x : α},
      exMap f l = .ok l' → l[i]? = some x →
      ∃ y, f x = .ok y ∧ l'[i]? = some y := by
  intro l
  induction l with
  | nil => intro l' i x _ hx; simp at hx
  | cons a as ih =>
    intro l' i x h hx
    simp only [exMap] at h
    cases hfa : f a with
    | error e => rw [hfa] at h; simp at h
    | ok y =>
      rw [hfa] at h
      cases hrest : exMap f as with
      | error e => rw [hrest] at h; simp at h
      | ok ys =>
        rw [hrest] at h
        simp only [Except.ok.injEq] at h
        subst h
        cases i with
        | zero =>
          rw [List.getElem?_cons_zero] at hx
          injection hx with hx
          subst hx
          exact ⟨y, hfa, List.getElem?_cons_zero⟩
        | succ n =>
          rw [List.getElem?_cons_succ] at hx
          obtain ⟨z, hz, hz'⟩ := ih hrest hx
          exact ⟨z, hz, by simpa using hz'⟩

theorem exMap_error {α β : Type} {f : α → Except String β} :
    ∀ {l : List α} {i : Nat} {x : α} {e : String},
      l[i]? = some x → f x = .error e → ∃ e', exMap f l = .error e' := by
  intro l
  induction l with
  | nil => intro i x e hx _; simp at hx
  | cons a as ih =>
    intro i x e hx hfx
    cases i with
    | zero =>
      rw [List.getElem?_cons_zero] at hx
      injection hx with hx
      subst hx
      exact ⟨e, by simp [exMap, hfx]⟩
    | succ n =>
      rw [List.getElem?_cons_succ] at hx
      cases hfa : f a with
      | error e2 => exact ⟨e2, by simp [exMap, hfa]⟩
      | ok y =>
        obtain ⟨e', he'⟩ := ih hx hfx
        exact ⟨e', by simp [exMap, hfa, he']⟩

theorem buildPrim_ok {γ : Type} {wrap : List (Option γ) → ArrowArray}
    {extract : PyObject → Except String γ} {values : List PyObject}
    {a : ArrowArray} (h : buildPrim wrap extract values = .ok a) :
    ∃ vs, exMap (extractOpt extract) values = .ok vs ∧ a = wrap vs := by
  unfold buildPrim at h
  cases hm : exMap (extractOpt extract) values with
  | error e => rw [hm] at h; simp at h
  | ok vs =>
    rw [hm] at h
    simp only [Except.ok.injEq] at h
    exact ⟨vs, rfl, h.symm⟩

theorem listArrayNew_ok {inner : DataType} {offsets : List Int}
    {child : ArrowArray} {valid : List Bool} {a : ArrowArray}
    (h : listArrayNew inner offsets child valid = .ok a) :
    a = .listA inner offsets child valid ∧
      offsets ≠ [] ∧ nondecreasing offsets = true ∧
      0 ≤ offsets.headD 0 ∧ offsets.getLastD 0 ≤ (child.length : Int) ∧
      valid.length + 1 = offsets.length := by
  unfold listArrayNew at h
  split_ifs at h with h1 h2 h3 h4 h5
  · injection h with h
    refine ⟨h.symm, by simpa using h1, by simpa using h2, ?_, by simpa using h4,
      by omega⟩
    omega

theorem structArrayNew_ok {fields : List (String × DataType)}
    {children : List ArrowArray} {valid : List Bool} {a : ArrowArray}
    (h : structArrayNew fields children valid = .ok a) :
    a = .structA fields children valid ∧ children.length = fields.length ∧
      ∀ c ∈ children, c.length = valid.length := by
  unfold structArrayNew at h
  split_ifs at h with h1 h2
  · injection h with h
    refine ⟨h.symm, by omega, ?_⟩
    intro c hc
    exact (by simpa using h2 : ∀ x ∈ children, x.length = valid.length) c hc

theorem flattenLoop_length :
    ∀ {vs flat f : List PyObject} {offs : List Int},
      flattenLoop vs flat = .ok (f, offs) → offs.length = vs.length := by
  intro vs
  induction vs with
  | nil =>
    intro flat f offs h
    simp only [flattenLoop, Except.ok.injEq, Prod.mk.injEq] at h
    rw [← h.2]
    rfl
  | cons v rest ih =>
    intro flat f offs h
    simp only [flattenLoop] at h
    split at h
    · split at h
      next pf poffs hr =>
        simp only [Except.ok.injEq, Prod.mk.injEq] at h
        rw [← h.2]
        simp [ih hr]
      next e hr => simp at h
    · split at h
      · simp at h
      next xs hit =>
        split at h
        next pf poffs hr =>
          simp only [Except.ok.injEq, Prod.mk.injEq] at h
          rw [← h.2]
          simp [ih hr]
        next e hr => simp at h

/-- What `build_array` appends at a null row is a null position, for the
nullable builder loops. -/
theorem buildPrim_null_at {γ : Type} {wrap : List (Option γ) → ArrowArray}
    {extract : PyObject → Except String γ} {values : List PyObject}
    {a : ArrowArray} {i : Nat}
    (h : buildPrim wrap extract values = .ok a)
    (hv : values[i]? = some .none)
    (hwrap : ∀ vs, (wrap vs).isNull i = (vs[i]?).elim false Option.isNone) :
    a.isNull i = true := by
  obtain ⟨vs, hm, rfl⟩ := buildPrim_ok h
  obtain ⟨y, hy, hvs⟩ := exMap_ok_get hm hv
  simp only [extractOpt, PyObject.isNone, if_pos, Except.ok.injEq] at hy
  rw [hwrap, hvs, ← hy]
  rfl

/-- Null preservation of the encoder (every descriptor): a null dynamic value
at position `i` encodes to a null position `i`. -/
theorem build_array_null_at {dt : DataType} {values : List PyObject}
    {a : ArrowArray} {i : Nat} (h : build_array dt values = .ok a)
    (hv : values[i]? = some .none) : a.isNull i = true := by
  have hi : i < values.length := by
    by_contra hge
    rw [List.getElem?_eq_none_iff.mpr (Nat.le_of_not_lt hge)] at hv
    cases hv
  cases dt with
  | null =>
    simp only [build_array] at h
    injection h with h
    rw [← h]
    simpa [ArrowArray.isNull] using hi
  | boolean =>
    simp only [build_array] at h
    exact buildPrim_null_at h hv (fun _ => rfl)
  | int8 =>
    simp only [build_array] at h
    exact buildPrim_null_at h hv (fun _ => rfl)
  | int16 =>
    simp only [build_array] at h
    exact buildPrim_null_at h hv (fun _ => rfl)
  | int32 =>
    simp only [build_array] at h
    exact buildPrim_null_at h hv (fun _ => rfl)
  | int64 =>
    simp only [build_array] at h
    exact buildPrim_null_at h hv (fun _ => rfl)
  | uint8 =>
    simp only [build_array] at h
    exact buildPrim_null_at h hv (fun _ => rfl)
  | uint16 =>
    simp only [build_array] at h
    exact buildPrim_null_at h hv (fun _ => rfl)
  | uint32 =>
    simp only [build_array] at h
    exact buildPrim_null_at h hv (fun _ => rfl)
  | uint64 =>
    simp only [build_array] at h
    exact buildPrim_null_at h hv (fun _ => rfl)
  | float32 =>
    simp only [build_array] at h
    exact buildPrim_null_at h hv (fun _ => rfl)
  | float64 =>
    simp only [build_array] at h
    exact buildPrim_null_at h hv (fun _ => rfl)
  | utf8 =>
    simp only [build_array] at h
    exact buildPrim_null_at h hv (fun _ => rfl)
  | binary =>
    simp only [build_array] at h
    exact buildPrim_null_at h hv (fun _ => rfl)
  | largeUtf8 =>
    simp only [build_array] at h
    exact buildPrim_null_at h hv (fun _ => rfl)
  | largeBinary =>
    simp only [build_array] at h
    injection h with h
    rw [← h]
    simp [ArrowArray.isNull, List.getElem?_map, hv, PyObject.isNone]
  | list inner =>
    simp only [build_array] at h
    split at h
    · simp at h
    · split at h
      · simp at h
      · obtain ⟨ha, -⟩ := listArrayNew_ok h
        rw [ha]
        simp [ArrowArray.isNull, List.getElem?_map, hv, PyObject.isNone]
  | struct fields =>
    simp only [build_array] at h
    split at h
    · simp at h
    · obtain ⟨ha, -⟩ := structArrayNew_ok h
      rw [ha]
      simp [ArrowArray.isNull, List.getElem?_map, hv, PyObject.isNone]

theorem buildPrim_length {γ : Type} {wrap : List (Option γ) → ArrowArray}
    {extract : PyObject → Except String γ} {values : List PyObject}
    {a : ArrowArray} (h : buildPrim wrap extract values = .ok a)
    (hwrap : ∀ vs, (wrap vs).length = vs.length) : a.length = values.length := by
  obtain ⟨vs, hm, rfl⟩ := buildPrim_ok h
  rw [hwrap, exMap_ok_length hm]

/-- Length preservation of the encoder: the output array has one position per
input value, for every descriptor. -/
theorem build_array_length {dt : DataType} {values : List PyObject}
    {a : ArrowArray} (h : build_array dt values = .ok a) :
    a.length = values.length := by
  cases dt with
  | null =>
    simp only [build_array] at h
    injection h with h
    rw [← h]
    rfl
  | boolean =>
    simp only [build_array] at h
    exact buildPrim_length h (fun _ => rfl)
  | int8 =>
    simp only [build_array] at h
    exact buildPrim_length h (fun _ => rfl)
  | int16 =>
    simp only [build_array] at h
    exact buildPrim_length h (fun _ => rfl)
  | int32 =>
    simp only [build_array] at h
    exact buildPrim_length h (fun _ => rfl)
  | int64 =>
    simp only [build_array] at h
    exact buildPrim_length h (fun _ => rfl)
  | uint8 =>
    simp only [build_array] at h
    exact buildPrim_length h (fun _ => rfl)
  | uint16 =>
    simp only [build_array] at h
    exact buildPrim_length h (fun _ => rfl)
  | uint32 =>
    simp only [build_array] at h
    exact buildPrim_length h (fun _ => rfl)
  | uint64 =>
    simp only [build_array] at h
    exact buildPrim_length h (fun _ => rfl)
  | float32 =>
    simp only [build_array] at h
    exact buildPrim_length h (fun _ => rfl)
  | float64 =>
    simp only [build_array] at h
    exact buildPrim_length h (fun _ => rfl)
  | utf8 =>
    simp only [build_array] at h
    exact buildPrim_length h (fun _ => rfl)
  | binary =>
    simp only [build_array] at h
    exact buildPrim_length h (fun _ => rfl)
  | largeUtf8 =>
    simp only [build_array] at h
    exact buildPrim_length h (fun _ => rfl)
  | largeBinary =>
    simp only [build_array] at h
    injection h with h
    rw [← h]
    simp [ArrowArray.length]
  | list inner =>
    simp only [build_array] at h
    split at h
    · simp at h
    next flat offsTail hf =>
      split at h
      · simp at h
      · obtain ⟨ha, -⟩ := listArrayNew_ok h
        rw [ha]
        simp only [ArrowArray.length, List.length_cons]
        rw [flattenLoop_length hf]
        rfl
  | struct fields =>
    simp only [build_array] at h
    split at h
    · simp at h
    · obtain ⟨ha, -⟩ := structArrayNew_ok h
      rw [ha]
      simp [ArrowArray.length]

theorem toI32_of_lt {n : Nat} (h : n < 2 ^ 31) : toI32 n = (n : Int) := by
  unfold toI32
  rw [Nat.mod_eq_of_lt (by omega)]
  rw [if_pos h]

theorem toI32_zero : toI32 0 = 0 := toI32_of_lt (by norm_num)

/-- The final offset recorded by the flattening loop is the (wrapped) length
of the flattened value list. -/
theorem flattenLoop_last :
    ∀ {vs flat f : List PyObject} {offs : List Int},
      flattenLoop vs flat = .ok (f, offs) →
      (toI32 flat.length :: offs).getLastD 0 = toI32 f.length := by
  intro vs
  induction vs with
  | nil =>
    intro flat f offs h
    simp only [flattenLoop, Except.ok.injEq, Prod.mk.injEq] at h
    rw [← h.2, ← h.1]
    rfl
  | cons v rest ih =>
    intro flat f offs h
    simp only [flattenLoop] at h
    split at h
    · split at h
      next pf poffs hr =>
        simp only [Except.ok.injEq, Prod.mk.injEq] at h
        rw [← h.2, ← h.1]
        rw [List.getLastD_cons, List.getLastD_cons]
        have := ih hr
        rw [List.getLastD_cons] at this
        exact this
      next e hr => simp at h
    · split at h
      · simp at h
      next xs hit =>
        split at h
        next pf poffs hr =>
          simp only [Except.ok.injEq, Prod.mk.injEq] at h
          rw [← h.2, ← h.1]
          rw [List.getLastD_cons, List.getLastD_cons]
          have := ih hr
          rw [List.getLastD_cons] at this
          exact this
        next e hr => simp at h

/-- A null row repeats the previous offset (zero-width span). -/
theorem flattenLoop_null_offset :
    ∀ {vs flat f : List PyObject} {offs : List Int} {i : Nat} {v : PyObject},
      flattenLoop vs flat = .ok (f, offs) → vs[i]? = some v →
      v.isNone = true →
      (toI32 flat.length :: offs)[i + 1]? = (toI32 flat.length :: offs)[i]? := by
  intro vs
  induction vs with
  | nil => intro flat f offs i v _ hv; simp at hv
  | cons w rest ih =>
    intro flat f offs i v h hv hnone
    simp only [flattenLoop] at h
    split at h
    next hw =>
      split at h
      next pf poffs hr =>
        simp only [Except.ok.injEq, Prod.mk.injEq] at h
        rw [← h.2]
        cases i with
        | zero => simp
        | succ n =>
          rw [List.getElem?_cons_succ] at hv
          have := ih hr hv hnone
          simp only [List.getElem?_cons_succ] at this ⊢
          exact this
      next e hr => simp at h
    next hw =>
      split at h
      · simp at h
      next xs hit =>
        split at h
        next pf poffs hr =>
          simp only [Except.ok.injEq, Prod.mk.injEq] at h
          rw [← h.2]
          cases i with
          | zero =>
            rw [List.getElem?_cons_zero] at hv
            injection hv with hv
            rw [← hv] at hnone
            exact absurd hnone (by simp [hw])
          | succ n =>
            rw [List.getElem?_cons_succ] at hv
            have := ih hr hv hnone
            simp only [List.getElem?_cons_succ] at this ⊢
            exact this
        next e hr => simp at h

theorem nondecreasing_tail {a : Int} :
    ∀ {l : List Int}, nondecreasing (a :: l) = true → nondecreasing l = true := by
  intro l h
  cases l with
  | nil => rfl
  | cons b rest =>
    simp only [nondecreasing, Bool.and_eq_true] at h
    exact h.2

theorem nondecreasing_head_le {a b : Int} :
    ∀ {l : List Int}, nondecreasing (a :: l) = true → b ∈ l → a ≤ b := by
  intro l
  induction l generalizing a with
  | nil => intro _ hb; cases hb
  | cons c rest ih =>
    intro h hb
    simp only [nondecreasing, Bool.and_eq_true, decide_eq_true_eq] at h
    rcases List.mem_cons.mp hb with rfl | hb
    · exact h.1
    · exact le_trans h.1 (ih h.2 hb)

theorem nondecreasing_get_le_getLastD :
    ∀ {l : List Int}, nondecreasing l = true → ∀ {i : Nat} {x : Int},
      l[i]? = some x → x ≤ l.getLastD 0 := by
  intro l
  induction l with
  | nil => intro _ i x hx; simp at hx
  | cons a rest ih =>
    intro h i x hx
    rw [List.getLastD_cons]
    cases rest with
    | nil =>
      cases i with
      | zero =>
        rw [List.getElem?_cons_zero] at hx
        injection hx with hx
        subst hx
        exact le_rfl
      | succ n => simp at hx
    | cons b r =>
      have hab : a ≤ b ∧ nondecreasing (b :: r) = true := by
        simpa [nondecreasing, Bool.and_eq_true, decide_eq_true_eq] using h
      have hdef : (b :: r).getLastD a = (b :: r).getLastD 0 := by
        rw [List.getLastD_cons, List.getLastD_cons]
      rw [hdef]
      cases i with
      | zero =>
        rw [List.getElem?_cons_zero] at hx
        injection hx with hx
        subst hx
        exact le_trans hab.1 (ih hab.2 List.getElem?_cons_zero)
      | succ n =>
        rw [List.getElem?_cons_succ] at hx
        exact ih hab.2 hx

theorem nondecreasing_nonneg :
    ∀ {l : List Int}, nondecreasing l = true → 0 ≤ l.headD 0 →
      ∀ {i : Nat} {x : Int}, l[i]? = some x → 0 ≤ x := by
  intro l
  induction l with
  | nil => intro _ _ i x hx; simp at hx
  | cons a rest ih =>
    intro h hh i x hx
    cases i with
    | zero =>
      rw [List.getElem?_cons_zero] at hx
      injection hx with hx
      subst hx
      simpa using hh
    | succ n =>
      rw [List.getElem?_cons_succ] at hx
      cases rest with
      | nil => simp at hx
      | cons b r =>
        have hab : a ≤ b ∧ nondecreasing (b :: r) = true := by
          simpa [nondecreasing, Bool.and_eq_true, decide_eq_true_eq] using h
        have hb : (0 : Int) ≤ (b :: r).headD 0 := by
          have ha : (0 : Int) ≤ a := by simpa using hh
          have := hab.1
          simp only [List.headD_cons]
          omega
        exact ih hab.2 hb hx

theorem nondecreasing_adjacent :
    ∀ {l : List Int}, nondecreasing l = true → ∀ {i : Nat} {a b : Int},
      l[i]? = some a → l[i + 1]? = some b → a ≤ b := by
  intro l
  induction l with
  | nil => intro _ i a b ha _; simp at ha
  | cons c rest ih =>
    intro h i a b ha hb
    cases i with
    | zero =>
      rw [List.getElem?_cons_zero] at ha
      injection ha with ha
      rw [List.getElem?_cons_succ] at hb
      cases rest with
      | nil => simp at hb
      | cons d r =>
        rw [List.getElem?_cons_zero] at hb
        injection hb with hb
        have hcd : c ≤ d ∧ nondecreasing (d :: r) = true := by
          simpa [nondecreasing, Bool.and_eq_true, decide_eq_true_eq] using h
        rw [← ha, ← hb]
        exact hcd.1
    | succ n =>
      rw [List.getElem?_cons_succ] at ha
      rw [List.getElem?_cons_succ] at hb
      exact ih (nondecreasing_tail h) ha hb

/-- Every child array of an encoded struct comes from encoding the field's
projection of the rows, which is as long as the input and null wherever the
row is null. -/
theorem buildFields_mem :
    ∀ {fs : List (String × DataType)} {values : List PyObject}
      {children : List ArrowArray},
      buildFields fs values = .ok children → ∀ {c : ArrowArray}, c ∈ children →
      ∃ ft fvals, build_array ft fvals = .ok c ∧
        fvals.length = values.length ∧
        ∀ {i : Nat}, values[i]? = some .none → fvals[i]? = some .none := by
  intro fs
  induction fs with
  | nil =>
    intro values children h c hc
    simp only [buildFields, Except.ok.injEq] at h
    subst h
    cases hc
  | cons f fsr ih =>
    intro values children h c hc
    obtain ⟨name, ft⟩ := f
    simp only [buildFields] at h
    split at h
    · simp at h
    next fieldValues hm =>
      split at h
      · simp at h
      next arr harr =>
        split at h
        · simp at h
        next others hothers =>
          injection h with h
          subst h
          rcases List.mem_cons.mp hc with rfl | hc
          · refine ⟨ft, fieldValues, harr, exMap_ok_length hm, ?_⟩
            intro i hv
            obtain ⟨y, hy, hfy⟩ := exMap_ok_get hm hv
            simp only [PyObject.isNone, if_pos] at hy
            injection hy with hy
            rw [← hy] at hfy
            exact hfy
          · exact ih hothers hc

/-- The struct-level validity mask the encoder records is exactly the rows'
non-noneness, independent of the field children. -/
theorem build_struct_mask {fields : List (String × DataType)}
    {values : List PyObject} {a : ArrowArray}
    (h : build_array (.struct fields) values = .ok a) :
    a.structNulls = some (values.map fun v => !v.isNone) := by
  simp only [build_array] at h
  split at h
  · simp at h
  · obtain ⟨ha, -⟩ := structArrayNew_ok h
    rw [ha]
    rfl

/-- The decoder's first check: a null position decodes to `None` regardless
of the array's type. -/
theorem get_pyobject_of_isNull {a : ArrowArray} {i : Nat}
    (h : a.isNull i = true) : get_pyobject a i = .ok .none := by
  rw [get_pyobject.eq_def]
  simp [h]

/-- A raw read succeeds on an in-range, non-null position. -/
theorem getPrim_isOk {γ : Type} {wrap : γ → PyObject} {vs : List (Option γ)}
    {i : Nat} (hi : i < vs.length)
    (hn : (vs[i]?).elim false Option.isNone = false) :
    (getPrim wrap vs i).isOk = true := by
  have hsome : vs[i]? = some vs[i] := List.getElem?_eq_getElem hi
  unfold getPrim
  rw [hsome] at hn ⊢
  cases ho : vs[i] with
  | none => rw [ho] at hn; simp at hn
  | some v => rfl

/-- Decoding a non-null json position is parsing its text. -/
theorem get_pyobject_largeUtf8 {vs : List (Option String)} {i : Nat}
    {s : String} (hs : vs[i]? = some (some s)) :
    get_pyobject (.largeUtf8A vs) i =
      match jsonLoads s with
      | some v => .ok v
      | Option.none => .error "ValueError: invalid json" := by
  rw [get_pyobject.eq_def]
  simp [ArrowArray.isNull, hs]

/-- Decoding a non-null decimal position is utf8-decoding and then
decimal-parsing its bytes. -/
theorem get_pyobject_largeBinary {vs : List (Option (List Nat))} {i : Nat}
    {bs : List Nat} (hs : vs[i]? = some (some bs)) :
    get_pyobject (.largeBinaryA vs) i =
      match utf8Decode bs with
      | some s =>
        match decimalParse s with
        | some d => .ok (.decimal d)
        | Option.none => .error "decimal.InvalidOperation"
      | Option.none => .error "Utf8Error" := by
  rw [get_pyobject.eq_def]
  simp [ArrowArray.isNull, hs]

/-- Decoding a non-null list position decodes its offset-delimited span. -/
theorem get_pyobject_list {inner : DataType} {offsets : List Int}
    {child : ArrowArray} {valid : List Bool} {i : Nat} {s e : Int}
    (hn : (valid[i]?).getD true = true)
    (hs : offsets[i]? = some s) (he : offsets[i + 1]? = some e) :
    get_pyobject (.listA inner offsets child valid) i =
      match decodeRange child s.toNat (e.toNat - s.toNat) with
      | .ok vs => .ok (.pylist vs)
      | .error err => .error err := by
  rw [get_pyobject.eq_def]
  simp [ArrowArray.isNull, hn, hs, he]

/-- Decoding a non-null struct position decodes every field at that row. -/
theorem get_pyobject_struct {fields : List (String × DataType)}
    {children : List ArrowArray} {valid : List Bool} {i : Nat}
    (hn : (valid[i]?).getD true = true) :
    get_pyobject (.structA fields children valid) i =
      match decodeFields fields children i with
      | .ok attrs => .ok (.structObj attrs)
      | .error e => .error e := by
  rw [get_pyobject.eq_def]
  simp [ArrowArray.isNull, hn]

/-- Well-formed input arrays: the decoder's "valid input". List offsets are
non-empty, non-negative, monotone and within the child; struct children are
one per field and as long as the struct; the embedded text of json/decimal
columns parses; children are recursively well-formed. -/
inductive ValidArray : ArrowArray → Prop where
  | nullA (len : Nat) : ValidArray (.nullA len)
  | boolA (vs : List (Option Bool)) : ValidArray (.boolA vs)
  | int8A (vs : List (Option Int)) : ValidArray (.int8A vs)
  | int16A (vs : List (Option Int)) : ValidArray (.int16A vs)
  | int32A (vs : List (Option Int)) : ValidArray (.int32A vs)
  | int64A (vs : List (Option Int)) : ValidArray (.int64A vs)
  | uint8A (vs : List (Option Int)) : ValidArray (.uint8A vs)
  | uint16A (vs : List (Option Int)) : ValidArray (.uint16A vs)
  | uint32A (vs : List (Option Int)) : ValidArray (.uint32A vs)
  | uint64A (vs : List (Option Int)) : ValidArray (.uint64A vs)
  | float32A (vs : List (Option Nat)) : ValidArray (.float32A vs)
  | float64A (vs : List (Option Nat)) : ValidArray (.float64A vs)
  | utf8A (vs : List (Option String)) : ValidArray (.utf8A vs)
  | binaryA (vs : List (Option (List Nat))) : ValidArray (.binaryA vs)
  | largeUtf8A (vs : List (Option String)) :
      (∀ s : String, some s ∈ vs → (jsonLoads s).isSome = true) →
      ValidArray (.largeUtf8A vs)
  | largeBinaryA (vs : List (Option (List Nat))) :
      (∀ bs : List Nat, some bs ∈ vs →
        ∃ s, utf8Decode bs = some s ∧ (decimalParse s).isSome = true) →
      ValidArray (.largeBinaryA vs)
  | listA (inner : DataType) (offsets : List Int) (child : ArrowArray)
      (valid : List Bool) :
      offsets ≠ [] → nondecreasing offsets = true →
      0 ≤ offsets.headD 0 → offsets.getLastD 0 ≤ (child.length : Int) →
      ValidArray child → ValidArray (.listA inner offsets child valid)
  | structA (fields : List (String × DataType)) (children : List ArrowArray)
      (valid : List Bool) :
      children.length = fields.length →
      (∀ c ∈ children, c.length = valid.length) →
      (∀ c ∈ children, ValidArray c) →
      ValidArray (.structA fields children valid)

theorem decodeRange_isOk {child : ArrowArray}
    (hchild : ∀ j : Nat, j < child.length →
      (get_pyobject child j).isOk = true) :
    ∀ (count start : Nat), start + count ≤ child.length →
      (decodeRange child start count).isOk = true := by
  intro count
  induction count with
  | zero =>
    intro start _
    simp only [decodeRange]
    rfl
  | succ n ih =>
    intro start hle
    simp only [decodeRange]
    have h1 : (get_pyobject child start).isOk = true := hchild start (by omega)
    cases hg : get_pyobject child start with
    | error e => rw [hg] at h1; simp [Except.isOk, Except.toBool] at h1
    | ok v =>
      have h2 : (decodeRange child (start + 1) n).isOk = true :=
        ih (start + 1) (by omega)
      cases hr : decodeRange child (start + 1) n with
      | error e => rw [hr] at h2; simp [Except.isOk, Except.toBool] at h2
      | ok vs => rfl

theorem decodeFields_isOk :
    ∀ {fs : List (String × DataType)} {cs : List ArrowArray} {i : Nat},
      cs.length = fs.length →
      (∀ c ∈ cs, (get_pyobject c i).isOk = true) →
      (decodeFields fs cs i).isOk = true := by
  intro fs
  induction fs with
  | nil =>
    intro cs i hlen _
    cases cs with
    | nil => simp only [decodeFields]; rfl
    | cons c cs2 => simp at hlen
  | cons f fsr ih =>
    intro cs i hlen hok
    obtain ⟨name, ft⟩ := f
    cases cs with
    | nil => simp at hlen
    | cons c cs2 =>
      simp only [decodeFields]
      have h1 : (get_pyobject c i).isOk = true :=
        hok c (List.mem_cons_self c cs2)
      cases hg : get_pyobject c i with
      | error e => rw [hg] at h1; simp [Except.isOk, Except.toBool] at h1
      | ok v =>
        have h2 : (decodeFields fsr cs2 i).isOk = true :=
          ih (by simpa using hlen)
            (fun c2 hc2 => hok c2 (List.mem_cons_of_mem _ hc2))
        cases hr : decodeFields fsr cs2 i with
        | error e => rw [hr] at h2; simp [Except.isOk, Except.toBool] at h2
        | ok attrs => rfl

/-- Decoder totality on valid input: `get_pyobject` succeeds at every
in-range position of a well-formed array. -/
theorem get_pyobject_total :
    ∀ {a : ArrowArray}, ValidArray a → ∀ {i : Nat}, i < a.length →
      (get_pyobject a i).isOk = true := by
  intro a ha
  induction ha with
  | nullA len =>
    intro i hi
    rw [get_pyobject_of_isNull (by
      simpa [ArrowArray.isNull, ArrowArray.length] using hi)]
    rfl
  | boolA vs =>
    intro i hi
    by_cases hn : (ArrowArray.boolA vs).isNull i = true
    · rw [get_pyobject_of_isNull hn]; rfl
    · have hg : get_pyobject (.boolA vs) i = getPrim PyObject.bool vs i := by
        rw [get_pyobject.eq_def]
        simp [hn]
      rw [hg]
      exact getPrim_isOk hi (by simpa [ArrowArray.isNull] using hn)
  | int8A vs =>
    intro i hi
    by_cases hn : (ArrowArray.int8A vs).isNull i = true
    · rw [get_pyobject_of_isNull hn]; rfl
    · have hg : get_pyobject (.int8A vs) i = getPrim PyObject.int vs i := by
        rw [get_pyobject.eq_def]
        simp [hn]
      rw [hg]
      exact getPrim_isOk hi (by simpa [ArrowArray.isNull] using hn)
  | int16A vs =>
    intro i hi
    by_cases hn : (ArrowArray.int16A vs).isNull i = true
    · rw [get_pyobject_of_isNull hn]; rfl
    · have hg : get_pyobject (.int16A vs) i = getPrim PyObject.int vs i := by
        rw [get_pyobject.eq_def]
        simp [hn]
      rw [hg]
      exact getPrim_isOk hi (by simpa [ArrowArray.isNull] using hn)
  | int32A vs =>
    intro i hi
    by_cases hn : (ArrowArray.int32A vs).isNull i = true
    · rw [get_pyobject_of_isNull hn]; rfl
    · have hg : get_pyobject (.int32A vs) i = getPrim PyObject.int vs i := by
        rw [get_pyobject.eq_def]
        simp [hn]
      rw [hg]
      exact getPrim_isOk hi (by simpa [ArrowArray.isNull] using hn)
  | int64A vs =>
    intro i hi
    by_cases hn : (ArrowArray.int64A vs).isNull i = true
    · rw [get_pyobject_of_isNull hn]; rfl
    · have hg : get_pyobject (.int64A vs) i = getPrim PyObject.int vs i := by
        rw [get_pyobject.eq_def]
        simp [hn]
      rw [hg]
      exact getPrim_isOk hi (by simpa [ArrowArray.isNull] using hn)
  | uint8A vs =>
    intro i hi
    by_cases hn : (ArrowArray.uint8A vs).isNull i = true
    · rw [get_pyobject_of_isNull hn]; rfl
    · have hg : get_pyobject (.uint8A vs) i = getPrim PyObject.int vs i := by
        rw [get_pyobject.eq_def]
        simp [hn]
      rw [hg]
      exact getPrim_isOk hi (by simpa [ArrowArray.isNull] using hn)
  | uint16A vs =>
    intro i hi
    by_cases hn : (ArrowArray.uint16A vs).isNull i = true
    · rw [get_pyobject_of_isNull hn]; rfl
    · have hg : get_pyobject (.uint16A vs) i = getPrim PyObject.int vs i := by
        rw [get_pyobject.eq_def]
        simp [hn]
      rw [hg]
      exact getPrim_isOk hi (by simpa [ArrowArray.isNull] using hn)
  | uint32A vs =>
    intro i hi
    by_cases hn : (ArrowArray.uint32A vs).isNull i = true
    · rw [get_pyobject_of_isNull hn]; rfl
    · have hg : get_pyobject (.uint32A vs) i = getPrim PyObject.int vs i := by
        rw [get_pyobject.eq_def]
        simp [hn]
      rw [hg]
      exact getPrim_isOk hi (by simpa [ArrowArray.isNull] using hn)
  | uint64A vs =>
    intro i hi
    by_cases hn : (ArrowArray.uint64A vs).isNull i = true
    · rw [get_pyobject_of_isNull hn]; rfl
    · have hg : get_pyobject (.uint64A vs) i = getPrim PyObject.int vs i := by
        rw [get_pyobject.eq_def]
        simp [hn]
      rw [hg]
      exact getPrim_isOk hi (by simpa [ArrowArray.isNull] using hn)
  | float32A vs =>
    intro i hi
    by_cases hn : (ArrowArray.float32A vs).isNull i = true
    · rw [get_pyobject_of_isNull hn]; rfl
    · have hg : get_pyobject (.float32A vs) i = getPrim PyObject.float vs i := by
        rw [get_pyobject.eq_def]
        simp [hn]
      rw [hg]
      exact getPrim_isOk hi (by simpa [ArrowArray.isNull] using hn)
  | float64A vs =>
    intro i hi
    by_cases hn : (ArrowArray.float64A vs).isNull i = true
    · rw [get_pyobject_of_isNull hn]; rfl
    · have hg : get_pyobject (.float64A vs) i = getPrim PyObject.float vs i := by
        rw [get_pyobject.eq_def]
        simp [hn]
      rw [hg]
      exact getPrim_isOk hi (by simpa [ArrowArray.isNull] using hn)
  | utf8A vs =>
    intro i hi
    by_cases hn : (ArrowArray.utf8A vs).isNull i = true
    · rw [get_pyobject_of_isNull hn]; rfl
    · have hg : get_pyobject (.utf8A vs) i = getPrim PyObject.str vs i := by
        rw [get_pyobject.eq_def]
        simp [hn]
      rw [hg]
      exact getPrim_isOk hi (by simpa [ArrowArray.isNull] using hn)
  | binaryA vs =>
    intro i hi
    by_cases hn : (ArrowArray.binaryA vs).isNull i = true
    · rw [get_pyobject_of_isNull hn]; rfl
    · have hg : get_pyobject (.binaryA vs) i = getPrim PyObject.bytes vs i := by
        rw [get_pyobject.eq_def]
        simp [hn]
      rw [hg]
      exact getPrim_isOk hi (by simpa [ArrowArray.isNull] using hn)
  | largeUtf8A vs hvalid =>
    intro i hi
    by_cases hn : (ArrowArray.largeUtf8A vs).isNull i = true
    · rw [get_pyobject_of_isNull hn]; rfl
    · have hsome : vs[i]? = some vs[i] := List.getElem?_eq_getElem hi
      cases ho : vs[i] with
      | none => exact absurd (by simp [ArrowArray.isNull, hsome, ho]) hn
      | some str =>
        rw [get_pyobject_largeUtf8 (by rw [hsome, ho])]
        have hmem : some str ∈ vs := by
          rw [← ho]
          exact List.getElem_mem hi
        obtain ⟨v, hv⟩ := Option.isSome_iff_exists.mp (hvalid str hmem)
        rw [hv]
        rfl
  | largeBinaryA vs hvalid =>
    intro i hi
    by_cases hn : (ArrowArray.largeBinaryA vs).isNull i = true
    · rw [get_pyobject_of_isNull hn]; rfl
    · have hsome : vs[i]? = some vs[i] := List.getElem?_eq_getElem hi
      cases ho : vs[i] with
      | none => exact absurd (by simp [ArrowArray.isNull, hsome, ho]) hn
      | some bs =>
        rw [get_pyobject_largeBinary (by rw [hsome, ho])]
        have hmem : some bs ∈ vs := by
          rw [← ho]
          exact List.getElem_mem hi
        obtain ⟨str, hu, hd⟩ := hvalid bs hmem
        obtain ⟨d, hdp⟩ := Option.isSome_iff_exists.mp hd
        rw [hu]
        simp [hdp, Except.isOk, Except.toBool]
  | listA inner offsets child valid hne hmono hhead hlast hchild ihchild =>
    intro i hi
    by_cases hn : (ArrowArray.listA inner offsets child valid).isNull i = true
    · rw [get_pyobject_of_isNull hn]; rfl
    · have hn2 : (valid[i]?).getD true = true := by
        simpa [ArrowArray.isNull] using hn
      have hlen : i + 1 < offsets.length := by
        have h1 : (ArrowArray.listA inner offsets child valid).length =
            offsets.length - 1 := rfl
        rw [h1] at hi
        have h2 : offsets.length ≠ 0 := fun hz =>
          hne (List.eq_nil_of_length_eq_zero hz)
        omega
      obtain ⟨s, hs⟩ : ∃ s, offsets[i]? = some s :=
        ⟨offsets[i], List.getElem?_eq_getElem (by omega)⟩
      obtain ⟨e, he⟩ : ∃ e, offsets[i + 1]? = some e :=
        ⟨offsets[i + 1], List.getElem?_eq_getElem hlen⟩
      have hs0 : (0 : Int) ≤ s := nondecreasing_nonneg hmono hhead hs
      have hse : s ≤ e := nondecreasing_adjacent hmono hs he
      have heL : e ≤ (child.length : Int) :=
        le_trans (nondecreasing_get_le_getLastD hmono he) hlast
      have hok : (decodeRange child s.toNat (e.toNat - s.toNat)).isOk = true :=
        decodeRange_isOk (fun j hj => ihchild hj) (e.toNat - s.toNat) s.toNat
          (by omega)
      rw [get_pyobject_list hn2 hs he]
      cases hr : decodeRange child s.toNat (e.toNat - s.toNat) with
      | error err => rw [hr] at hok; simp [Except.isOk, Except.toBool] at hok
      | ok vs => rfl
  | structA fields children valid hlen hclen hvalid ih =>
    intro i hi
    by_cases hn : (ArrowArray.structA fields children valid).isNull i = true
    · rw [get_pyobject_of_isNull hn]; rfl
    · have hn2 : (valid[i]?).getD true = true := by
        simpa [ArrowArray.isNull] using hn
      have hok : (decodeFields fields children i).isOk = true := by
        refine decodeFields_isOk hlen ?_
        intro c hc
        refine ih c hc ?_
        rw [hclen c hc]
        exact hi
      rw [get_pyobject_struct hn2]
      cases hr : decodeFields fields children i with
      | error e => rw [hr] at hok; simp [Except.isOk, Except.toBool] at hok
      | ok attrs => rfl

/-- The non-nested scalar descriptors of the round-trip claim: the leaf
scalars (Boolean, the integer and float widths, Utf8, Binary) plus Null.
Json (`largeUtf8`) and Decimal (`largeBinary`) are the spec's distinguished
text-carrying leaves, not plain scalars, and `list`/`struct` are nested. -/
def isScalarDT : DataType → Bool
  | .null => true
  | .boolean => true
  | .int8 => true
  | .int16 => true
  | .int32 => true
  | .int64 => true
  | .uint8 => true
  | .uint16 => true
  | .uint32 => true
  | .uint64 => true
  | .float32 => true
  | .float64 => true
  | .utf8 => true
  | .binary => true
  | _ => false

/-- A non-null native value of a scalar descriptor: a python value of the
descriptor's native runtime type, integers within the width's range. `null`
has no non-null native value. -/
def NativeValue : DataType → PyObject → Bool
  | .boolean, .bool _ => true
  | .int8, .int n => decide (-128 ≤ n ∧ n ≤ 127)
  | .int16, .int n => decide (-32768 ≤ n ∧ n ≤ 32767)
  | .int32, .int n => decide (-2147483648 ≤ n ∧ n ≤ 2147483647)
  | .int64, .int n =>
    decide (-9223372036854775808 ≤ n ∧ n ≤ 9223372036854775807)
  | .uint8, .int n => decide (0 ≤ n ∧ n ≤ 255)
  | .uint16, .int n => decide (0 ≤ n ∧ n ≤ 65535)
  | .uint32, .int n => decide (0 ≤ n ∧ n ≤ 4294967295)
  | .uint64, .int n => decide (0 ≤ n ∧ n ≤ 18446744073709551615)
  | .float32, .float _ => true
  | .float64, .float _ => true
  | .utf8, .str _ => true
  | .binary, .bytes _ => true
  | _, _ => false

/-- The leaf scalar descriptors of the mismatch claim: Boolean, the integer
and float types, Utf8, Binary. -/
def isLeafScalarDT : DataType → Bool
  | .boolean => true
  | .int8 => true
  | .int16 => true
  | .int32 => true
  | .int64 => true
  | .uint8 => true
  | .uint16 => true
  | .uint32 => true
  | .uint64 => true
  | .float32 => true
  | .float64 => true
  | .utf8 => true
  | .binary => true
  | _ => false

/-- Whether a python value's runtime type is the native type of a leaf scalar
descriptor (ranges not considered: an out-of-range int still has the matching
runtime type). -/
def TypeMatches : DataType → PyObject → Bool
  | .boolean, .bool _ => true
  | .int8, .int _ => true
  | .int16, .int _ => true
  | .int32, .int _ => true
  | .int64, .int _ => true
  | .uint8, .int _ => true
  | .uint16, .int _ => true
  | .uint32, .int _ => true
  | .uint64, .int _ => true
  | .float32, .float _ => true
  | .float64, .float _ => true
  | .utf8, .str _ => true
  | .binary, .bytes _ => true
  | _, _ => false

/-- C1: for every non-nested scalar descriptor (the leaf scalars; `null` has
no non-null native value, so it holds vacuously there) and every non-null
native value `v` of that descriptor, encoding `[v]` with `build_array` and
decoding position 0 of the result with `get_pyobject` yields `v` again. -/
theorem C1_scalar_roundtrip {dt : DataType} {v : PyObject}
    (hdt : isScalarDT dt = true) (hv : NativeValue dt v = true) :
    ∃ a, build_array dt [v] = .ok a ∧ get_pyobject a 0 = .ok v := by
  cases dt with
  | null => cases v <;> simp [NativeValue] at hv
  | boolean =>
    cases v <;> simp [NativeValue] at hv
    rename_i b
    exact ⟨.boolA [some b],
      by simp [build_array, buildPrim, exMap, extractOpt, PyObject.isNone, extractBool],
      by simp [get_pyobject.eq_def, ArrowArray.isNull, getPrim]⟩
  | int8 =>
    cases v <;> simp [NativeValue] at hv
    rename_i n
    exact ⟨.int8A [some n],
      by simp [build_array, buildPrim, exMap, extractOpt, PyObject.isNone, extractIntRange, hv],
      by simp [get_pyobject.eq_def, ArrowArray.isNull, getPrim]⟩
  | int16 =>
    cases v <;> simp [NativeValue] at hv
    rename_i n
    exact ⟨.int16A [some n],
      by simp [build_array, buildPrim, exMap, extractOpt, PyObject.isNone, extractIntRange, hv],
      by simp [get_pyobject.eq_def, ArrowArray.isNull, getPrim]⟩
  | int32 =>
    cases v <;> simp [NativeValue] at hv
    rename_i n
    exact ⟨.int32A [some n],
      by simp [build_array, buildPrim, exMap, extractOpt, PyObject.isNone, extractIntRange, hv],
      by simp [get_pyobject.eq_def, ArrowArray.isNull, getPrim]⟩
  | int64 =>
    cases v <;> simp [NativeValue] at hv
    rename_i n
    exact ⟨.int64A [some n],
      by simp [build_array, buildPrim, exMap, extractOpt, PyObject.isNone, extractIntRange, hv],
      by simp [get_pyobject.eq_def, ArrowArray.isNull, getPrim]⟩
  | uint8 =>
    cases v <;> simp [NativeValue] at hv
    rename_i n
    exact ⟨.uint8A [some n],
      by simp [build_array, buildPrim, exMap, extractOpt, PyObject.isNone, extractIntRange, hv],
      by simp [get_pyobject.eq_def, ArrowArray.isNull, getPrim]⟩
  | uint16 =>
    cases v <;> simp [NativeValue] at hv
    rename_i n
    exact ⟨.uint16A [some n],
      by simp [build_array, buildPrim, exMap, extractOpt, PyObject.isNone, extractIntRange, hv],
      by simp [get_pyobject.eq_def, ArrowArray.isNull, getPrim]⟩
  | uint32 =>
    cases v <;> simp [NativeValue] at hv
    rename_i n
    exact ⟨.uint32A [some n],
      by simp [build_array, buildPrim, exMap, extractOpt, PyObject.isNone, extractIntRange, hv],
      by simp [get_pyobject.eq_def, ArrowArray.isNull, getPrim]⟩
  | uint64 =>
    cases v <;> simp [NativeValue] at hv
    rename_i n
    exact ⟨.uint64A [some n],
      by simp [build_array, buildPrim, exMap, extractOpt, PyObject.isNone, extractIntRange, hv],
      by simp [get_pyobject.eq_def, ArrowArray.isNull, getPrim]⟩
  | float32 =>
    cases v <;> simp [NativeValue] at hv
    rename_i bits
    exact ⟨.float32A [some bits],
      by simp [build_array, buildPrim, exMap, extractOpt, PyObject.isNone, extractFloat],
      by simp [get_pyobject.eq_def, ArrowArray.isNull, getPrim]⟩
  | float64 =>
    cases v <;> simp [NativeValue] at hv
    rename_i bits
    exact ⟨.float64A [some bits],
      by simp [build_array, buildPrim, exMap, extractOpt, PyObject.isNone, extractFloat],
      by simp [get_pyobject.eq_def, ArrowArray.isNull, getPrim]⟩
  | utf8 =>
    cases v <;> simp [NativeValue] at hv
    rename_i str
    exact ⟨.utf8A [some str],
      by simp [build_array, buildPrim, exMap, extractOpt, PyObject.isNone, extractStr],
      by simp [get_pyobject.eq_def, ArrowArray.isNull, getPrim]⟩
  | binary =>
    cases v <;> simp [NativeValue] at hv
    rename_i bs
    exact ⟨.binaryA [some bs],
      by simp [build_array, buildPrim, exMap, extractOpt, PyObject.isNone, extractBytes],
      by simp [get_pyobject.eq_def, ArrowArray.isNull, getPrim]⟩
  | largeUtf8 => cases v <;> simp [NativeValue] at hv
  | largeBinary => cases v <;> simp [NativeValue] at hv
  | list inner => cases v <;> simp [NativeValue] at hv
  | struct fields => cases v <;> simp [NativeValue] at hv

/-- C1 witness: the round trip at `int32` and the concrete value 5. -/
theorem C1_scalar_roundtrip_witness :
    ∃ a, build_array .int32 [.int 5] = .ok a ∧
      get_pyobject a 0 = .ok (.int 5) :=
  C1_scalar_roundtrip (by decide) (by decide)

/-- C2: nulls are preserved in both directions: a position the array marks
null decodes to `None` whatever the declared type, and a `None` value at
position `i` encodes to an array that is null at `i`, for every
descriptor. -/
theorem C2_null_preservation :
    (∀ (a : ArrowArray) (i : Nat), a.isNull i = true →
        get_pyobject a i = .ok .none) ∧
    (∀ (dt : DataType) (values : List PyObject) (a : ArrowArray) (i : Nat),
        build_array dt values = .ok a → values[i]? = some .none →
        a.isNull i = true) :=
  ⟨fun _ _ h => get_pyobject_of_isNull h,
   fun _ _ _ _ h hv => build_array_null_at h hv⟩

/-- C2 witness: both directions at concrete one-row arrays. -/
theorem C2_null_preservation_witness :
    get_pyobject (.utf8A [Option.none]) 0 = .ok .none ∧
    (ArrowArray.int32A [Option.none]).isNull 0 = true :=
  ⟨C2_null_preservation.1 (.utf8A [Option.none]) 0 rfl,
   C2_null_preservation.2 .int32 [.none] (.int32A [Option.none]) 0
     (by simp [build_array, buildPrim, exMap, extractOpt, PyObject.isNone])
     rfl⟩

/-- C4: for every supported descriptor and every value sequence on which the
encoder succeeds, the produced column array's length equals the input
length. -/
theorem C4_encode_length {dt : DataType} {values : List PyObject}
    {a : ArrowArray} (h : build_array dt values = .ok a) :
    a.length = values.length :=
  build_array_length h

/-- C4 witness: a two-row utf8 column. -/
theorem C4_encode_length_witness :
    (ArrowArray.utf8A [some "x", Option.none]).length =
      ([PyObject.str "x", PyObject.none] : List PyObject).length :=
  @C4_encode_length DataType.utf8 [PyObject.str "x", PyObject.none]
    (ArrowArray.utf8A [some "x", Option.none])
    (by simp [build_array, buildPrim, exMap, extractOpt,
      PyObject.isNone, extractStr])

/-- C6: the decoder is total over the closed descriptor set: on every
well-formed array (`ValidArray`: sound offsets, children and parseable
embedded text) and every in-range row index, `get_pyobject` succeeds. -/
theorem C6_decoder_total {a : ArrowArray} (hv : ValidArray a) {i : Nat}
    (hi : i < a.length) : (get_pyobject a i).isOk = true :=
  get_pyobject_total hv hi

/-- C6 witness: a list-of-int32 array with an inner null. -/
theorem C6_decoder_total_witness :
    (get_pyobject
      (.listA .int32 [0, 1, 2] (.int32A [some 7, Option.none]) [true, true])
      0).isOk = true :=
  C6_decoder_total
    (ValidArray.listA .int32 [0, 1, 2] (.int32A [some 7, Option.none])
      [true, true] (by decide) (by decide) (by decide) (by decide)
      (ValidArray.int32A [some 7, Option.none]))
    (by decide)

/-- C7: encoding a leaf scalar column aborts with an error — no coercion, no
partial array — when some non-null value's runtime type differs from the
descriptor's native type. -/
theorem C7_type_mismatch_error {dt : DataType} {values : List PyObject}
    {i : Nat} {v : PyObject} (hdt : isLeafScalarDT dt = true)
    (hv : values[i]? = some v) (hnn : v.isNone = false)
    (hmism : TypeMatches dt v = false) :
    ∃ e, build_array dt values = .error e := by
  cases dt with
  | null => simp [isLeafScalarDT] at hdt
  | boolean =>
    have herr : ∃ e0, extractOpt extractBool v = .error e0 := by
      cases v <;>
        simp_all [extractOpt, extractBool, extractIntRange, extractFloat,
          extractStr, extractBytes, PyObject.isNone, TypeMatches]
    obtain ⟨e0, he0⟩ := herr
    obtain ⟨e2, he2⟩ := exMap_error hv he0
    exact ⟨e2, by simp [build_array, buildPrim, he2]⟩
  | int8 =>
    have herr : ∃ e0, extractOpt (extractIntRange (-128) 127) v = .error e0 := by
      cases v <;>
        simp_all [extractOpt, extractBool, extractIntRange, extractFloat,
          extractStr, extractBytes, PyObject.isNone, TypeMatches]
    obtain ⟨e0, he0⟩ := herr
    obtain ⟨e2, he2⟩ := exMap_error hv he0
    exact ⟨e2, by simp [build_array, buildPrim, he2]⟩
  | int16 =>
    have herr : ∃ e0, extractOpt (extractIntRange (-32768) 32767) v = .error e0 := by
      cases v <;>
        simp_all [extractOpt, extractBool, extractIntRange, extractFloat,
          extractStr, extractBytes, PyObject.isNone, TypeMatches]
    obtain ⟨e0, he0⟩ := herr
    obtain ⟨e2, he2⟩ := exMap_error hv he0
    exact ⟨e2, by simp [build_array, buildPrim, he2]⟩
  | int32 =>
    have herr : ∃ e0, extractOpt (extractIntRange (-2147483648) 2147483647) v = .error e0 := by
      cases v <;>
        simp_all [extractOpt, extractBool, extractIntRange, extractFloat,
          extractStr, extractBytes, PyObject.isNone, TypeMatches]
    obtain ⟨e0, he0⟩ := herr
    obtain ⟨e2, he2⟩ := exMap_error hv he0
    exact ⟨e2, by simp [build_array, buildPrim, he2]⟩
  | int64 =>
    have herr : ∃ e0, extractOpt (extractIntRange (-9223372036854775808) 9223372036854775807) v = .error e0 := by
      cases v <;>
        simp_all [extractOpt, extractBool, extractIntRange, extractFloat,
          extractStr, extractBytes, PyObject.isNone, TypeMatches]
    obtain ⟨e0, he0⟩ := herr
    obtain ⟨e2, he2⟩ := exMap_error hv he0
    exact ⟨e2, by simp [build_array, buildPrim, he2]⟩
  | uint8 =>
    have herr : ∃ e0, extractOpt (extractIntRange 0 255) v = .error e0 := by
      cases v <;>
        simp_all [extractOpt, extractBool, extractIntRange, extractFloat,
          extractStr, extractBytes, PyObject.isNone, TypeMatches]
    obtain ⟨e0, he0⟩ := herr
    obtain ⟨e2, he2⟩ := exMap_error hv he0
    exact ⟨e2, by simp [build_array, buildPrim, he2]⟩
  | uint16 =>
    have herr : ∃ e0, extractOpt (extractIntRange 0 65535) v = .error e0 := by
      cases v <;>
        simp_all [extractOpt, extractBool, extractIntRange, extractFloat,
          extractStr, extractBytes, PyObject.isNone, TypeMatches]
    obtain ⟨e0, he0⟩ := herr
    obtain ⟨e2, he2⟩ := exMap_error hv he0
    exact ⟨e2, by simp [build_array, buildPrim, he2]⟩
  | uint32 =>
    have herr : ∃ e0, extractOpt (extractIntRange 0 4294967295) v = .error e0 := by
      cases v <;>
        simp_all [extractOpt, extractBool, extractIntRange, extractFloat,
          extractStr, extractBytes, PyObject.isNone, TypeMatches]
    obtain ⟨e0, he0⟩ := herr
    obtain ⟨e2, he2⟩ := exMap_error hv he0
    exact ⟨e2, by simp [build_array, buildPrim, he2]⟩
  | uint64 =>
    have herr : ∃ e0, extractOpt (extractIntRange 0 18446744073709551615) v = .error e0 := by
      cases v <;>
        simp_all [extractOpt, extractBool, extractIntRange, extractFloat,
          extractStr, extractBytes, PyObject.isNone, TypeMatches]
    obtain ⟨e0, he0⟩ := herr
    obtain ⟨e2, he2⟩ := exMap_error hv he0
    exact ⟨e2, by simp [build_array, buildPrim, he2]⟩
  | float32 =>
    have herr : ∃ e0, extractOpt extractFloat v = .error e0 := by
      cases v <;>
        simp_all [extractOpt, extractBool, extractIntRange, extractFloat,
          extractStr, extractBytes, PyObject.isNone, TypeMatches]
    obtain ⟨e0, he0⟩ := herr
    obtain ⟨e2, he2⟩ := exMap_error hv he0
    exact ⟨e2, by simp [build_array, buildPrim, he2]⟩
  | float64 =>
    have herr : ∃ e0, extractOpt extractFloat v = .error e0 := by
      cases v <;>
        simp_all [extractOpt, extractBool, extractIntRange, extractFloat,
          extractStr, extractBytes, PyObject.isNone, TypeMatches]
    obtain ⟨e0, he0⟩ := herr
    obtain ⟨e2, he2⟩ := exMap_error hv he0
    exact ⟨e2, by simp [build_array, buildPrim, he2]⟩
  | utf8 =>
    have herr : ∃ e0, extractOpt extractStr v = .error e0 := by
      cases v <;>
        simp_all [extractOpt, extractBool, extractIntRange, extractFloat,
          extractStr, extractBytes, PyObject.isNone, TypeMatches]
    obtain ⟨e0, he0⟩ := herr
    obtain ⟨e2, he2⟩ := exMap_error hv he0
    exact ⟨e2, by simp [build_array, buildPrim, he2]⟩
  | binary =>
    have herr : ∃ e0, extractOpt extractBytes v = .error e0 := by
      cases v <;>
        simp_all [extractOpt, extractBool, extractIntRange, extractFloat,
          extractStr, extractBytes, PyObject.isNone, TypeMatches]
    obtain ⟨e0, he0⟩ := herr
    obtain ⟨e2, he2⟩ := exMap_error hv he0
    exact ⟨e2, by simp [build_array, buildPrim, he2]⟩
  | largeUtf8 => simp [isLeafScalarDT] at hdt
  | largeBinary => simp [isLeafScalarDT] at hdt
  | list inner => simp [isLeafScalarDT] at hdt
  | struct fields => simp [isLeafScalarDT] at hdt

/-- C7 witness: a string under an int32 descriptor is refused. -/
theorem C7_type_mismatch_error_witness :
    ∃ e, build_array .int32 [.str "no"] = .error e :=
  C7_type_mismatch_error (by decide) (List.getElem?_cons_zero) rfl rfl

/-- C8: for json (`LargeUtf8`) and decimal (`LargeBinary`) positions, text
that fails to parse (invalid JSON, invalid UTF-8, or text the decimal
constructor rejects) surfaces an error to the caller, and text that parses
decodes to the structurally parsed value tree (json) or the
arbitrary-precision decimal value. -/
theorem C8_structured_text_decode :
    (∀ (vs : List (Option String)) (i : Nat) (s : String),
        vs[i]? = some (some s) → jsonLoads s = Option.none →
        ∃ e, get_pyobject (.largeUtf8A vs) i = .error e) ∧
    (∀ (vs : List (Option String)) (i : Nat) (s : String) (v : PyObject),
        vs[i]? = some (some s) → jsonLoads s = some v →
        get_pyobject (.largeUtf8A vs) i = .ok v) ∧
    (∀ (vs : List (Option (List Nat))) (i : Nat) (bs : List Nat),
        vs[i]? = some (some bs) → utf8Decode bs = Option.none →
        ∃ e, get_pyobject (.largeBinaryA vs) i = .error e) ∧
    (∀ (vs : List (Option (List Nat))) (i : Nat) (bs : List Nat) (s : String),
        vs[i]? = some (some bs) → utf8Decode bs = some s →
        decimalParse s = Option.none →
        ∃ e, get_pyobject (.largeBinaryA vs) i = .error e) ∧
    (∀ (vs : List (Option (List Nat))) (i : Nat) (bs : List Nat) (s : String)
        (d : PyDecimal),
        vs[i]? = some (some bs) → utf8Decode bs = some s →
        decimalParse s = some d →
        get_pyobject (.largeBinaryA vs) i = .ok (.decimal d)) := by
  refine ⟨?_, ?_, ?_, ?_, ?_⟩
  · intro vs i s hs hj
    rw [get_pyobject_largeUtf8 hs, hj]
    exact ⟨_, rfl⟩
  · intro vs i s v hs hj
    rw [get_pyobject_largeUtf8 hs, hj]
  · intro vs i bs hs hu
    rw [get_pyobject_largeBinary hs, hu]
    exact ⟨_, rfl⟩
  · intro vs i bs s hs hu hd
    rw [get_pyobject_largeBinary hs, hu]
    simp [hd]
  · intro vs i bs s d hs hu hd
    rw [get_pyobject_largeBinary hs, hu]
    simp [hd]

/-- C8 witness: the five behaviours at concrete inputs ("[1" is invalid
JSON, "[1, null]" parses; 0xFF is invalid UTF-8; "x" is rejected by the
decimal constructor, "1.5" parses to 15E-1). -/
theorem C8_structured_text_decode_witness :
    (∃ e, get_pyobject (.largeUtf8A [some "[1"]) 0 = .error e) ∧
    get_pyobject (.largeUtf8A [some "[1, null]"]) 0 =
      .ok (.pylist [.int 1, .none]) ∧
    (∃ e, get_pyobject (.largeBinaryA [some [255]]) 0 = .error e) ∧
    (∃ e, get_pyobject (.largeBinaryA [some [120]]) 0 = .error e) ∧
    get_pyobject (.largeBinaryA [some [49, 46, 53]]) 0 =
      .ok (.decimal ⟨false, 15, -1⟩) :=
  ⟨C8_structured_text_decode.1 _ 0 "[1" rfl (by rfl),
   C8_structured_text_decode.2.1 _ 0 "[1, null]" _ rfl (by rfl),
   C8_structured_text_decode.2.2.1 _ 0 [255] rfl (by rfl),
   C8_structured_text_decode.2.2.2.1 _ 0 [120] "x" rfl (by rfl) (by rfl),
   C8_structured_text_decode.2.2.2.2 _ 0 [49, 46, 53] "1.5" _ rfl (by rfl)
     (by rfl)⟩

/-- C10: when encoding a struct, every null row contributes a null
placeholder to every field's projection, so each field child is as long as
the input and null at every struct-null row. -/
theorem C10_struct_null_projection {fields : List (String × DataType)}
    {values : List PyObject} {a : ArrowArray}
    (h : build_array (.struct fields) values = .ok a) :
    (∀ c ∈ a.structChildren, c.length = values.length) ∧
    (∀ (i : Nat) (c : ArrowArray), values[i]? = some .none →
        c ∈ a.structChildren → c.isNull i = true) := by
  have hb : ∃ children, buildFields fields values = .ok children ∧
      a.structChildren = children := by
    simp only [build_array] at h
    split at h
    · simp at h
    next children hbf =>
      obtain ⟨ha, -⟩ := structArrayNew_ok h
      refine ⟨children, hbf, ?_⟩
      rw [ha]
      rfl
  obtain ⟨children, hbf, hch⟩ := hb
  rw [hch]
  constructor
  · intro c hc
    obtain ⟨ft, fvals, hbc, hfl, -⟩ := buildFields_mem hbf hc
    rw [build_array_length hbc, hfl]
  · intro i c hv hc
    obtain ⟨ft, fvals, hbc, -, hnul⟩ := buildFields_mem hbf hc
    exact build_array_null_at hbc (hnul hv)

/-- C10 witness: a one-field struct with one null row. -/
theorem C10_struct_null_projection_witness :
    (∀ c ∈ (ArrowArray.structA [("a", DataType.utf8)] [.utf8A [Option.none]]
        [false]).structChildren,
      c.length = ([PyObject.none] : List PyObject).length) ∧
    (∀ (i : Nat) (c : ArrowArray),
      ([PyObject.none] : List PyObject)[i]? = some .none →
      c ∈ (ArrowArray.structA [("a", DataType.utf8)] [.utf8A [Option.none]]
        [false]).structChildren →
      c.isNull i = true) :=
  @C10_struct_null_projection [("a", DataType.utf8)] [PyObject.none]
    (ArrowArray.structA [("a", DataType.utf8)] [.utf8A [Option.none]] [false])
    (by simp [build_array, buildFields, buildPrim, exMap, extractOpt,
      PyObject.isNone, structArrayNew, ArrowArray.length])

theorem toI32_two_pow_32 : toI32 (2 ^ 32) = 0 := by decide

/-- C3 (amended): a successfully encoded List array has an offsets sequence
of length N+1 that starts at 0, is monotonically non-decreasing, and repeats
the previous offset at every null row; and whenever the encoded child
array's length is below 2^31 (so the `as i32` cast cannot wrap) the final
offset equals the child array's length. The bound is necessary: see the
counterexample, where a row of 2^32 elements wraps the cast to 0 while the
arrow validations still pass. -/
theorem C3_list_offsets {inner : DataType} {values : List PyObject}
    {a : ArrowArray} (h : build_array (.list inner) values = .ok a) :
    ∃ offsets child valid, a = .listA inner offsets child valid ∧
      offsets.length = values.length + 1 ∧
      offsets.headD 0 = 0 ∧
      nondecreasing offsets = true ∧
      (∀ (i : Nat) (v : PyObject), values[i]? = some v → v.isNone = true →
        offsets[i + 1]? = offsets[i]?) ∧
      (child.length < 2 ^ 31 →
        offsets.getLastD 0 = (child.length : Int)) := by
  simp only [build_array] at h
  split at h
  · simp at h
  next flat offsTail hf =>
    split at h
    · simp at h
    next child hc =>
      obtain ⟨ha, hne, hmono, hhead, hlast, hlen⟩ := listArrayNew_ok h
      refine ⟨(0 : Int) :: offsTail, child,
        values.map (fun v => !v.isNone), ha, ?_, rfl, hmono, ?_, ?_⟩
      · simp [flattenLoop_length hf]
      · intro i v hv hnone
        have hrep := flattenLoop_null_offset hf hv hnone
        simpa [toI32_zero] using hrep
      · intro hbound
        have hcl : child.length = flat.length := build_array_length hc
        have h0 : ((0 : Int) :: offsTail).getLastD 0 = toI32 flat.length := by
          have hl := flattenLoop_last hf
          simpa [toI32_zero] using hl
        rw [h0, hcl, toI32_of_lt (by omega)]

/-- C3 witness: list-of-utf8 with rows `[["x"], null]` gives offsets
`[0, 1, 1]` over a one-element child. -/
theorem C3_list_offsets_witness :
    ∃ offsets child valid,
      ArrowArray.listA DataType.utf8 [0, 1, 1] (.utf8A [some "x"])
          [true, false] = .listA .utf8 offsets child valid ∧
      offsets.length =
        ([PyObject.pylist [.str "x"], PyObject.none] : List PyObject).length
          + 1 ∧
      offsets.headD 0 = 0 ∧
      nondecreasing offsets = true ∧
      (∀ (i : Nat) (v : PyObject),
        ([PyObject.pylist [.str "x"], PyObject.none] : List PyObject)[i]? =
          some v → v.isNone = true → offsets[i + 1]? = offsets[i]?) ∧
      (child.length < 2 ^ 31 →
        offsets.getLastD 0 = (child.length : Int)) :=
  C3_list_offsets (by
    simp [build_array, flattenLoop, PyObject.isNone, pyIter, buildPrim,
      exMap, extractOpt, extractStr,
      (by decide : toI32 0 = 0), (by decide : toI32 1 = 1), listArrayNew,
      nondecreasing, ArrowArray.length])

theorem flattenLoop_single {v : PyObject} {xs : List PyObject}
    (hv : v.isNone = false) (hit : pyIter v = some xs) :
    flattenLoop [v] [] = .ok (xs, [toI32 xs.length]) := by
  simp [flattenLoop, hv, hit]

/-- Encoding a one-row list column: flatten the single row and wrap its
(i32-cast) length as the final offset. -/
theorem build_array_list_single {inner : DataType} {v : PyObject}
    {xs : List PyObject} {child : ArrowArray} (hv : v.isNone = false)
    (hit : pyIter v = some xs) (hc : build_array inner xs = .ok child) :
    build_array (.list inner) [v] =
      listArrayNew inner [0, toI32 xs.length] child [true] := by
  simp only [build_array]
  rw [flattenLoop_single hv hit]
  simp [hc, hv]

/-- C3 counterexample: for the single input row `[list of 2^32 None]` under
the `List(Null)` descriptor, the flattened length 2^32 is cast `as i32` and
wraps to 0, the offsets `[0, 0]` still pass every arrow validation, and the
produced array's offsets do not end with the child array's length: the final
offset is 0 while the child has 2^32 elements. -/
theorem C3_list_offsets_counterexample :
    (build_array (.list .null)
        [.pylist (List.replicate (2 ^ 32) .none)]).map
        (fun a => (a.listOffsets, a.listChild.map ArrowArray.length)) =
      .ok ([0, 0], some (2 ^ 32)) ∧
    ¬((0 : Int) = ((2 ^ 32 : Nat) : Int)) := by
  constructor
  · have hchild : build_array .null (List.replicate (2 ^ 32) PyObject.none) =
        .ok (.nullA (2 ^ 32)) := by
      have hb : build_array .null (List.replicate (2 ^ 32) PyObject.none) =
          .ok (.nullA (List.replicate (2 ^ 32) PyObject.none).length) := by
        simp only [build_array]
      rw [hb, List.length_replicate]
    have hmain : build_array (.list .null)
        [PyObject.pylist (List.replicate (2 ^ 32) .none)] =
        .ok (.listA .null [0, 0] (.nullA (2 ^ 32)) [true]) := by
      rw [@build_array_list_single .null
          (PyObject.pylist (List.replicate (2 ^ 32) .none))
          (List.replicate (2 ^ 32) .none) (.nullA (2 ^ 32)) rfl rfl hchild,
        List.length_replicate, toI32_two_pow_32]
      rfl
    rw [hmain]
    rfl
  · decide

/-- C5: struct-level and field-level nulls are independent channels. For
arrays consumed by `get_pyobject`: a struct array with a struct-null row
over a non-null field child decodes (to `None`), and one with a null field
child under a non-null struct row decodes (to an attribute object carrying
`None`) — neither mask forces the other on the way in. For arrays produced
by `build_array`: a null field value yields a field-null position under a
non-null struct row, and the struct-level mask is recorded from row
noneness alone — it equals the rows' non-noneness for every encoded
struct, whatever the field children hold (a struct-null row does fill its
field children with null placeholders; that direction is C10). -/
theorem C5_struct_null_independence :
    (get_pyobject (.structA [("a", .int32)] [.int32A [some 5]] [false]) 0 =
        .ok .none ∧
      (ArrowArray.int32A [some 5]).isNull 0 = false) ∧
    (get_pyobject (.structA [("a", .int32)] [.int32A [Option.none]] [true])
        0 = .ok (.structObj [("a", .none)]) ∧
      (ArrowArray.structA [("a", .int32)] [.int32A [Option.none]]
        [true]).isNull 0 = false) ∧
    ((build_array (.struct [("a", .int32)])
        [.structObj [("a", .none)]]).map
        (fun a => (a.isNull 0, a.structChildren.map fun c => c.isNull 0)) =
      .ok (false, [true])) ∧
    (∀ (fields : List (String × DataType)) (values : List PyObject)
        (a : ArrowArray), build_array (.struct fields) values = .ok a →
      a.structNulls = some (values.map fun v => !v.isNone)) := by
  refine ⟨⟨?_, rfl⟩, ⟨?_, rfl⟩, ?_, ?_⟩
  · exact get_pyobject_of_isNull rfl
  · rw [@get_pyobject_struct [("a", DataType.int32)]
      [.int32A [Option.none]] [true] 0 rfl]
    have hd : decodeFields [("a", DataType.int32)] [.int32A [Option.none]]
        0 = .ok [("a", PyObject.none)] := by
      simp only [decodeFields]
      rw [@get_pyobject_of_isNull (.int32A [Option.none]) 0 rfl]
    rw [hd]
  · have h1 : build_array (.struct [("a", DataType.int32)])
        [.structObj [("a", .none)]] =
        .ok (.structA [("a", DataType.int32)] [.int32A [Option.none]]
          [true]) := by
      simp [build_array, buildFields, buildPrim, exMap, extractOpt,
        PyObject.isNone, PyObject.getattr, structArrayNew,
        ArrowArray.length]
    rw [h1]
    rfl
  · exact fun _ _ _ h => build_struct_mask h

/-- C5 witness: the struct mask recorded at a concrete encode. -/
theorem C5_struct_null_independence_witness :
    (ArrowArray.structA [("a", DataType.int32)] [.int32A [Option.none]]
      [true]).structNulls =
      some ([PyObject.structObj [("a", PyObject.none)]].map
        fun v => !v.isNone) :=
  C5_struct_null_independence.2.2.2 [("a", DataType.int32)]
    [.structObj [("a", .none)]]
    (ArrowArray.structA [("a", DataType.int32)] [.int32A [Option.none]]
      [true])
    (by simp [build_array, buildFields, buildPrim, exMap, extractOpt,
      PyObject.isNone, PyObject.getattr, structArrayNew, ArrowArray.length])

/-- Modelled from the spec: two's-complement i32 wrap of an integer (the
behaviour of the native i32 negation the test's `neg` compiles to). -/
def wrapI32 (x : Int) : Int := toI32 (x.emod (2 ^ 32)).toNat

/-- Modelled from the spec: the function-signature record that registration
produces (the `arrow-udf` crate's signature type and the `#[function]` macro
are not under `src/`; only the test that asserts its fields is). It carries
a name, the ordered argument types, the return type, the variadic flag and
a batch entry point; it is immutable after registration and the metadata
fields are plain projections, queryable without invoking `eval`. -/
structure Signature where
  name : String
  arg_types : List DataType
  return_type : DataType
  variadic : Bool
  eval : List ArrowArray → Except String ArrowArray

/-- Modelled from the spec: the signature registered by
`#[function("neg(int4) -> int4")]`, the one `test_neg` queries: name "neg",
one Int32 argument, non-variadic, Int32 result, evaluating a batch by
negating every non-null int32 row. -/
def neg_int4_int4_sig : Signature :=
  ⟨"neg", [.int32], .int32, false,
    fun batch =>
      match batch with
      | [.int32A vs] =>
        .ok (.int32A (vs.map (Option.map fun n => wrapI32 (-n))))
      | _ => .error "invalid batch"⟩

/-- C9: the registered signature's metadata — name, ordered argument types,
variadic flag, return type — is queryable without invoking the function
(the fields are projections, `eval` is untouched) and equals the values
declared at registration, as `test_neg` asserts. -/
theorem C9_signature_metadata :
    neg_int4_int4_sig.name = "neg" ∧
    neg_int4_int4_sig.arg_types = [DataType.int32] ∧
    neg_int4_int4_sig.variadic = false ∧
    neg_int4_int4_sig.return_type = DataType.int32 :=
  ⟨rfl, rfl, rfl, rfl⟩

end ArrowUdf
